/-
Verification of the content-engine layer of the muhsinkompas-website
repository: blog engine (src/utils/blog_engine.py), projects engine
(src/utils/projects_engine.py) and the personal-context loader
(src/utils/context.py), shallowly embedded in Lean 4.

Python strings are modelled as `String` / `List Char` (one `Char` per code
point, matching Python's `len`/indexing), Python `datetime`/`date` values as
`PyDate` (no time-of-day is ever produced by the code under study), file
modification times as `Int` (only their ordering matters), Python `None`y
JSON-ish runtime values as the `JValue` inductive, and Python exceptions as
`Except`/`Option` with the engines' `try/except` boundaries becoming
`Except.toOption`.
-/
import Mathlib

namespace Muhsinkompas

/-! ### Character and string helpers shared by the engines -/

/-- Python `str.lower` restricted to the ASCII range used by the content
(`tag.lower()`, `query.lower()` comparisons). -/
def pyLowerChar (c : Char) : Char := c.toLower

/-- `s.lower()` on a whole string. -/
def pyLower (s : String) : String := String.mk (s.data.map pyLowerChar)

/-- The whitespace class of Python's `str.split()` / `str.strip()`
(ASCII portion). -/
def pySpace (c : Char) : Bool :=
  c = ' ' || c = '\t' || c = '\n' || c = '\r' || c = '\x0b' || c = '\x0c'

/-- `str.strip()` on the character list. -/
def pyStripL (l : List Char) : List Char :=
  ((l.dropWhile pySpace).reverse.dropWhile pySpace).reverse

/-- `str.strip()`. -/
def pyStrip (s : String) : String := String.mk (pyStripL s.data)

/-- Splitting into whitespace-separated words, dropping empty pieces:
Python's argumentless `str.split()`.  `acc` is the word currently being
accumulated, in reverse. -/
def pySplitWsAux : List Char → List Char → List (List Char)
  | [], acc => if acc.isEmpty then [] else [acc.reverse]
  | c :: rest, acc =>
    if pySpace c then
      if acc.isEmpty then pySplitWsAux rest [] else acc.reverse :: pySplitWsAux rest []
    else
      pySplitWsAux rest (c :: acc)

def pySplitWs (l : List Char) : List (List Char) := pySplitWsAux l []

/-- `" ".join(words)`. -/
def joinSpace : List (List Char) → List Char
  | [] => []
  | [w] => w
  | w :: ws => w ++ ' ' :: joinSpace ws

/-- `" ".join(text.split())`: collapse all whitespace runs to single spaces,
trimming the ends. -/
def collapseWs (l : List Char) : List Char := joinSpace (pySplitWs l)

/-- `re.sub(r"<[^>]+>", "", s)`: drop every `<`…`>` group containing at
least one non-`>` character; fuel-driven so the definition evaluates in the
kernel (`fuel` is always called with the length of the list). -/
def stripTagsF : Nat → List Char → List Char
  | _, [] => []
  | 0, l => l
  | fuel + 1, c :: rest =>
    if c = '<' then
      let inside := rest.takeWhile (fun d => d ≠ '>')
      if inside.length < rest.length && !inside.isEmpty then
        stripTagsF fuel (rest.drop (inside.length + 1))
      else
        c :: stripTagsF fuel rest
    else
      c :: stripTagsF fuel rest

def stripTags (l : List Char) : List Char := stripTagsF l.length l

/-- `s.rsplit(sep, 1)[0]` for a one-character separator: everything before
the last occurrence of `ch`, or the whole list when `ch` does not occur. -/
def beforeLast (ch : Char) (l : List Char) : List Char :=
  if ch ∈ l then ((l.reverse.dropWhile (fun d => d ≠ ch)).tail).reverse else l

/-- Lexicographic comparison of character lists: Python `str` `<=` on code
points. -/
def charsLe : List Char → List Char → Bool
  | [], _ => true
  | _ :: _, [] => false
  | a :: as, b :: bs => if a < b then true else if b < a then false else charsLe as bs

def strLe (a b : String) : Bool := charsLe a.data b.data

/-! ### Excerpt generation

`BlogEngine._generate_excerpt` (src/utils/blog_engine.py:127-139) and
`ProjectsEngine._generate_excerpt` (src/utils/projects_engine.py:119-128)
are the same function with different default budgets. -/

/-- The tag-stripped, whitespace-collapsed text the excerpt is cut from. -/
def cleanTextL (content : List Char) : List Char := collapseWs (stripTags content)

/-- `_generate_excerpt(content, max_length)` on character lists. -/
def pyExcerptL (content : List Char) (maxLength : Nat) : List Char :=
  let clean := cleanTextL content
  if clean.length ≤ maxLength then clean
  else beforeLast ' ' (clean.take maxLength) ++ ('.' :: '.' :: '.' :: [])

/-- `_generate_excerpt` on `String`s. -/
def generateExcerpt (content : String) (maxLength : Nat) : String :=
  String.mk (pyExcerptL content.data maxLength)

/-! ### Dates -/

/-- A Python `datetime.date` / midnight `datetime.datetime`. -/
structure PyDate where
  year : Nat
  month : Nat
  day : Nat
deriving DecidableEq, Repr

/-- Lexicographic date order, as Python compares `date`/`datetime` values. -/
def dateLe (a b : PyDate) : Bool :=
  if a.year ≠ b.year then a.year < b.year
  else if a.month ≠ b.month then a.month < b.month
  else a.day ≤ b.day

def dateLt (a b : PyDate) : Bool := dateLe a b && !(dateLe b a)

def isLeap (y : Nat) : Bool := y % 4 = 0 && (y % 100 ≠ 0 || y % 400 = 0)

def daysInMonth (y m : Nat) : Nat :=
  if m = 2 then (if isLeap y then 29 else 28)
  else if m = 4 || m = 6 || m = 9 || m = 11 then 30
  else 31

/-- Is `⟨y, m, d⟩` a valid proleptic-Gregorian calendar date in the range
accepted by Python's `datetime` (year 1..9999)? -/
def validDate (y m d : Nat) : Bool :=
  1 ≤ y && y ≤ 9999 && 1 ≤ m && m ≤ 12 && 1 ≤ d && d ≤ daysInMonth y m

def digitVal (c : Char) : Nat := c.toNat - '0'.toNat

def digitsToNat (l : List Char) : Nat := l.foldl (fun acc c => 10 * acc + digitVal c) 0

/-- Strict `YYYY-MM-DD` shape *and* calendar validity:
`re.match(r"^\d{4}-\d{2}-\d{2}$", s)` followed by `date.fromisoformat(s)`,
as in `_parse_iso_date` (src/utils/context.py:103-125). `none` covers both
the regex failing and `fromisoformat` raising. -/
def parseIsoDateStr (s : String) : Option PyDate :=
  match s.data with
  | [y1, y2, y3, y4, '-', m1, m2, '-', d1, d2] =>
    if y1.isDigit && y2.isDigit && y3.isDigit && y4.isDigit &&
       m1.isDigit && m2.isDigit && d1.isDigit && d2.isDigit then
      let y := digitsToNat [y1, y2, y3, y4]
      let m := digitsToNat [m1, m2]
      let d := digitsToNat [d1, d2]
      if validDate y m d then some ⟨y, m, d⟩ else none
    else none
  | _ => none

/-- `s.split(sep)` for a one-character separator, keeping empty pieces
(Python semantics); `acc` is the current piece, reversed. -/
def splitCharAux (sep : Char) : List Char → List Char → List (List Char)
  | [], acc => [acc.reverse]
  | c :: rest, acc =>
    if c = sep then acc.reverse :: splitCharAux sep rest []
    else splitCharAux sep rest (c :: acc)

def splitChar (sep : Char) (l : List Char) : List (List Char) :=
  splitCharAux sep l []

/-- `datetime.strptime(s, "%Y-%m-%d")` as used by the blog and projects
engines: `-`-separated fields of 1-4 digit year and 1-2 digit month/day,
calendar-validated; `none` models the `ValueError`. -/
def pyStrptimeYMD (s : String) : Option PyDate :=
  match splitChar '-' s.data with
  | [ys, ms, ds] =>
    if !ys.isEmpty && ys.length ≤ 4 && ys.all Char.isDigit &&
       !ms.isEmpty && ms.length ≤ 2 && ms.all Char.isDigit &&
       !ds.isEmpty && ds.length ≤ 2 && ds.all Char.isDigit then
      let y := digitsToNat ys
      let m := digitsToNat ms
      let d := digitsToNat ds
      if validDate y m d then some ⟨y, m, d⟩ else none
    else none
  | _ => none

/-! ### Blog engine data model (src/utils/blog_engine.py)

`meta` (the residual frontmatter dict) is not modelled: no operation under
study reads it. -/

/-- `BlogPost` (src/utils/blog_engine.py:31-45). -/
structure BlogPost where
  slug : String
  title : String
  date : PyDate
  contentHtml : String
  contentRaw : String
  excerpt : String
  tags : List String
  author : String
  featuredImage : Option String
  readingTime : Nat
  isDraft : Bool
deriving DecidableEq, Repr

/-- The frontmatter `date` value: either a YAML-parsed datetime-like object
(`isinstance(date_str, datetime)`) or any other truthy value, carried as its
`str()` rendering and handed to `strptime`. -/
inductive FmDate where
  | dt (d : PyDate)
  | s (s : String)
deriving DecidableEq, Repr

/-- The frontmatter `tags` value: absent (default `[]`), a comma-separated
string, or a list of strings. -/
inductive FmTags where
  | absent
  | str (s : String)
  | list (ts : List String)
deriving DecidableEq, Repr

/-- One raw content unit as the parser sees it: the file on disk together
with its frontmatter.  `loadOk = false` models `frontmatter.load` raising
(unreadable file / broken frontmatter).  `Option String` fields are `none`
when the key is absent or falsy (the code reads them with `.get(...)` and
`or`-chains). -/
structure RawUnit where
  loadOk : Bool
  filename : String
  mtimeDate : PyDate
  fmTitle : Option String
  fmDate : Option FmDate
  fmSlug : Option String
  fmTags : FmTags
  fmDraft : Bool
  fmExcerpt : Option String
  fmDescription : Option String
  fmAuthor : Option String
  fmFeaturedImage : Option String
  fmImage : Option String
  fmType : Option String
  fmGithubUrl : Option String
  fmDemoUrl : Option String
  fmFeatured : Bool
  fmTechnologies : FmTags
  fmStars : Int
  fmForks : Int
  content : String
deriving DecidableEq, Repr

/-- `[t.strip() for t in tags.split(",")]`. -/
def pySplitComma (s : String) : List String :=
  (splitChar ',' s.data).map (fun w => String.mk (pyStripL w))

/-- Python `round` (half-to-even) of `words / 200`. -/
def pyRound200 (words : Nat) : Nat :=
  let q := words / 200
  let r := words % 200
  if r < 100 then q
  else if 100 < r then q + 1
  else if q % 2 = 0 then q else q + 1

/-- `_calculate_reading_time` (src/utils/blog_engine.py:121-125). -/
def calculateReadingTime (text : String) : Nat :=
  max 1 (pyRound200 (pySplitWs text.data).length)

/-- `re.match(r"^\d{4}-\d{2}-\d{2}-(.+)$", name)` on a filename stem:
`some rest` returns capture group 1. -/
def datePrefixSplit : List Char → Option (List Char)
  | y1 :: y2 :: y3 :: y4 :: '-' :: m1 :: m2 :: '-' :: d1 :: d2 :: '-' :: rest =>
    if y1.isDigit && y2.isDigit && y3.isDigit && y4.isDigit &&
       m1.isDigit && m2.isDigit && d1.isDigit && d2.isDigit && !rest.isEmpty then
      some rest
    else none
  | _ => none

/-- `BlogEngine._extract_slug_from_filename` on the extension-stripped stem. -/
def blogSlugOfStem (stem : List Char) : List Char :=
  match datePrefixSplit stem with
  | some rest => rest
  | none => stem

/-- `BlogEngine._extract_slug_from_filename` (src/utils/blog_engine.py:141-151):
strip the extension with `rsplit(".", 1)[0]`, then strip a leading
`YYYY-MM-DD-` date pattern. -/
def blogExtractSlug (filename : String) : String :=
  String.mk (blogSlugOfStem (beforeLast '.' filename.data))

/-- `re.match(r"^(\d{4}-\d{2}-\d{2})", filename)`: the 10-character date
prefix of the filename when shaped like one. -/
def filenameDatePrefix (filename : String) : Option String :=
  match filename.data with
  | y1 :: y2 :: y3 :: y4 :: '-' :: m1 :: m2 :: '-' :: d1 :: d2 :: rest =>
    if y1.isDigit && y2.isDigit && y3.isDigit && y4.isDigit &&
       m1.isDigit && m2.isDigit && d1.isDigit && d2.isDigit then
      some (String.mk [y1, y2, y3, y4, '-', m1, m2, '-', d1, d2])
    else
      let _ := rest
      none
  | _ => none

/-- The date-resolution block of `_parse_post`
(src/utils/blog_engine.py:165-179): frontmatter date, else filename date
prefix, else file mtime; `Except.error ()` is the `ValueError` a bad date
string raises out of `strptime`. -/
def blogDateOf (raw : RawUnit) : Except Unit PyDate :=
  match raw.fmDate with
  | some (.dt d) => .ok d
  | some (.s s) =>
    match pyStrptimeYMD s with
    | some d => .ok d
    | none => .error ()
  | none =>
    match filenameDatePrefix raw.filename with
    | some ds =>
      match pyStrptimeYMD ds with
      | some d => .ok d
      | none => .error ()
    | none => .ok raw.mtimeDate

/-- `BlogEngine._parse_post` (src/utils/blog_engine.py:153-215) before its
`try/except` boundary: `Except.error` is an exception escaping to the
handler.  `md` stands for the (deterministic, total) Markdown renderer
`self.md.convert`. -/
def parsePostEx (md : String → String) (raw : RawUnit) : Except Unit BlogPost :=
  if !raw.loadOk then .error ()
  else
    match blogDateOf raw with
    | .error e => .error e
    | .ok date =>
      let contentHtml := md raw.content
      .ok {
        slug := raw.fmSlug.getD (blogExtractSlug raw.filename)
        title := raw.fmTitle.getD "Untitled"
        date := date
        contentHtml := contentHtml
        contentRaw := raw.content
        excerpt := raw.fmExcerpt.getD
          (raw.fmDescription.getD (generateExcerpt contentHtml 160))
        tags := match raw.fmTags with
          | .absent => []
          | .str s => pySplitComma s
          | .list ts => ts
        author := raw.fmAuthor.getD "Muhsin Kompas"
        featuredImage := raw.fmFeaturedImage <|> raw.fmImage
        readingTime := calculateReadingTime raw.content
        isDraft := raw.fmDraft
      }

/-- `_parse_post` seen from outside: the catch-all `except` turns every
failure into `None`. -/
def parsePost (md : String → String) (raw : RawUnit) : Option BlogPost :=
  (parsePostEx md raw).toOption

/-- `_load_all_posts_cached` (src/utils/blog_engine.py:240-262): parse every
unit, keep the successes, sort by date newest-first (Python's stable
`list.sort(key=..., reverse=True)`). -/
def loadAllPosts (md : String → String) (raws : List RawUnit) : List BlogPost :=
  ((raws.filterMap (parsePost md)).mergeSort (fun a b => dateLe b.date a.date))

/-- `get_all_posts` (src/utils/blog_engine.py:264-284) as a view over the
cached collection `posts`. -/
def getAllPosts (includeDrafts : Bool) (posts : List BlogPost) : List BlogPost :=
  if includeDrafts then posts else posts.filter (fun p => !p.isDraft)

/-- `get_post_by_slug` (src/utils/blog_engine.py:286-302). -/
def getPostBySlug (slug : String) (posts : List BlogPost) : Option BlogPost :=
  (getAllPosts true posts).find? (fun p => p.slug == slug)

/-- `get_posts_by_tag` (src/utils/blog_engine.py:304-315). -/
def getPostsByTag (tag : String) (posts : List BlogPost) : List BlogPost :=
  (getAllPosts false posts).filter
    (fun p => (p.tags.map pyLower).contains (pyLower tag))

/-- `tags[tag_lower] = tags.get(tag_lower, 0) + 1` on an insertion-ordered
dict modelled as an association list. -/
def bumpCount : List (String × Nat) → String → List (String × Nat)
  | [], k => [(k, 1)]
  | (k', v) :: rest, k =>
    if k' = k then (k', v + 1) :: rest else (k', v) :: bumpCount rest k

/-- The tag-count dict built by `get_all_tags` before sorting. -/
def tagsDict (posts : List BlogPost) : List (String × Nat) :=
  (getAllPosts false posts).foldl
    (fun m p => p.tags.foldl (fun m t => bumpCount m (pyLower t)) m) []

/-- `get_all_tags` (src/utils/blog_engine.py:317-331): counts per lowercased
tag, sorted by count descending (stable). -/
def getAllTags (posts : List BlogPost) : List (String × Nat) :=
  (tagsDict posts).mergeSort (fun a b => decide (b.2 ≤ a.2))

/-- `len(set(t.lower() for t in p.tags) & set(t.lower() for t in post.tags))`. -/
def sharedTagCount (p post : BlogPost) : Nat :=
  (((p.tags.map pyLower).dedup).filter (fun t => t ∈ post.tags.map pyLower)).length

/-- `get_related_posts` (src/utils/blog_engine.py:345-371): score non-draft
posts other than the reference by shared-tag count, keep positive scores,
stable-sort descending, return the top `limit`. -/
def getRelatedPosts (post : BlogPost) (limit : Nat) (posts : List BlogPost) :
    List BlogPost :=
  let allPosts := getAllPosts false posts
  let scored := allPosts.filterMap (fun p =>
    if p.slug == post.slug then none
    else
      let shared := sharedTagCount p post
      if 0 < shared then some (shared, p) else none)
  let sorted := scored.mergeSort (fun a b => decide (b.1 ≤ a.1))
  (sorted.take limit).map (fun x => x.2)

/-! ### Projects engine data model (src/utils/projects_engine.py) -/

/-- `Project` (src/utils/projects_engine.py:30-49); `meta` elided as for
posts. -/
structure Project where
  slug : String
  title : String
  description : String
  contentHtml : String
  contentRaw : String
  tags : List String
  date : Option PyDate
  projectType : String
  githubUrl : Option String
  demoUrl : Option String
  featuredImage : Option String
  featured : Bool
  technologies : List String
  stars : Int
  forks : Int
  isDraft : Bool
deriving DecidableEq, Repr

/-- `ProjectsEngine._extract_slug_from_filename`
(src/utils/projects_engine.py:130-133): just the extension-stripped stem,
no date-prefix handling. -/
def projExtractSlug (filename : String) : String :=
  String.mk (beforeLast '.' filename.data)

/-- `ProjectsEngine._parse_project` (src/utils/projects_engine.py:135-203)
before its `try/except` boundary.  The only failure reaching the boundary is
`frontmatter.load`: a bad `date` string is swallowed by the inner
`try/except` and becomes `None`. -/
def parseProjectEx (md : String → String) (raw : RawUnit) : Except Unit Project :=
  if !raw.loadOk then .error ()
  else
    let contentHtml := md raw.content
    .ok {
      slug := raw.fmSlug.getD (projExtractSlug raw.filename)
      title := raw.fmTitle.getD "Untitled Project"
      description := raw.fmDescription.getD (generateExcerpt contentHtml 200)
      contentHtml := contentHtml
      contentRaw := raw.content
      tags := match raw.fmTags with
        | .absent => []
        | .str s => pySplitComma s
        | .list ts => ts
      date := match raw.fmDate with
        | some (.dt d) => some d
        | some (.s s) => pyStrptimeYMD s
        | none => none
      projectType := raw.fmType.getD "local"
      githubUrl := raw.fmGithubUrl
      demoUrl := raw.fmDemoUrl
      featuredImage := raw.fmFeaturedImage <|> raw.fmImage
      featured := raw.fmFeatured
      technologies := match raw.fmTechnologies with
        | .absent => []
        | .str s => pySplitComma s
        | .list ts => ts
      stars := raw.fmStars
      forks := raw.fmForks
      isDraft := raw.fmDraft
    }

/-- `_parse_project` seen from outside the catch-all `except`. -/
def parseProject (md : String → String) (raw : RawUnit) : Option Project :=
  (parseProjectEx md raw).toOption

/-- Sort key of `_load_all_projects_cached`
(src/utils/projects_engine.py:248): `(p.date or datetime.min, p.title)`
compared in reverse. -/
def projSortLe (a b : Project) : Bool :=
  let da := a.date.getD ⟨1, 1, 1⟩
  let db := b.date.getD ⟨1, 1, 1⟩
  if da ≠ db then dateLe da db else strLe a.title b.title

/-- `_load_all_projects_cached` (src/utils/projects_engine.py:228-250). -/
def loadAllProjects (md : String → String) (raws : List RawUnit) : List Project :=
  ((raws.filterMap (parseProject md)).mergeSort (fun a b => projSortLe b a))

/-- `get_all_projects` (src/utils/projects_engine.py:252-271) as a view over
the cached collection. -/
def getAllProjects (includeDrafts : Bool) (projects : List Project) : List Project :=
  if includeDrafts then projects else projects.filter (fun p => !p.isDraft)

/-- `get_featured_projects` (src/utils/projects_engine.py:291-309). -/
def getFeaturedProjects (limit : Nat) (projects : List Project) : List Project :=
  let all := getAllProjects false projects
  let featured := all.filter (fun p => p.featured)
  let featured :=
    if featured.length < limit then
      featured ++ (all.filter (fun p => !p.featured)).take (limit - featured.length)
    else featured
  featured.take limit

/-! ### Freshness gate (src/utils/blog_engine.py:217-238,
src/utils/projects_engine.py:205-226 — the two copies are identical) -/

/-- What one non-recursive scan of the content directory sees: the
directory's own mtime and the mtimes of the matching files.  `none` at the
use sites below models a missing directory. -/
structure DirScan where
  dirMtime : Int
  fileMtimes : List Int
deriving DecidableEq, Repr

/-- `_get_posts_dir_mtime` / `_get_projects_dir_mtime`: 0 for a missing
directory, else the running maximum of the directory's and the files'
mtimes. -/
def getDirMtime : Option DirScan → Int
  | none => 0
  | some scan =>
    scan.fileMtimes.foldl (fun latest m => if latest < m then m else latest)
      scan.dirMtime

/-- `_should_refresh_cache`: stale when nothing was recorded yet, else when
the scan maximum strictly exceeds the recorded timestamp. -/
def shouldRefreshCache (cacheTimestamp : Option Int) (dir : Option DirScan) : Bool :=
  let currentMtime := getDirMtime dir
  match cacheTimestamp with
  | none => true
  | some t => currentMtime > t

/-! ### Context manager (src/utils/context.py)

Runtime Python values flowing through `ContextManager` are modelled by
`JValue`: JSON scalars/containers plus `date` objects (which
`_tailor_timeline_items` stores into the dicts under `_start_dt`).
`JValue.null` is Python `None`; a dict is an insertion-ordered association
list. -/

inductive JValue where
  | null
  | bool (b : Bool)
  | str (s : String)
  | num (n : Int)
  | date (d : PyDate)
  | arr (xs : List JValue)
  | obj (fields : List (String × JValue))
deriving Repr

mutual

def JValue.beq : JValue → JValue → Bool
  | .null, .null => true
  | .bool a, .bool b => a == b
  | .str a, .str b => a == b
  | .num a, .num b => a == b
  | .date a, .date b => a == b
  | .arr a, .arr b => JValue.beqList a b
  | .obj a, .obj b => JValue.beqFields a b
  | _, _ => false

def JValue.beqList : List JValue → List JValue → Bool
  | [], [] => true
  | a :: as, b :: bs => JValue.beq a b && JValue.beqList as bs
  | _, _ => false

def JValue.beqFields : List (String × JValue) → List (String × JValue) → Bool
  | [], [] => true
  | (ka, va) :: as, (kb, vb) :: bs => ka == kb && JValue.beq va vb && JValue.beqFields as bs
  | _, _ => false

end

instance : BEq JValue := ⟨JValue.beq⟩

mutual

theorem JValue.beq_refl : ∀ v : JValue, JValue.beq v v = true
  | .null => rfl
  | .bool b => by simp [JValue.beq]
  | .str s => by simp [JValue.beq]
  | .num n => by simp [JValue.beq]
  | .date d => by simp [JValue.beq]
  | .arr xs => by simp [JValue.beq]; exact JValue.beqList_refl xs
  | .obj fs => by simp [JValue.beq]; exact JValue.beqFields_refl fs

theorem JValue.beqList_refl : ∀ xs : List JValue, JValue.beqList xs xs = true
  | [] => rfl
  | x :: xs => by
    simp [JValue.beqList]
    exact ⟨JValue.beq_refl x, JValue.beqList_refl xs⟩

theorem JValue.beqFields_refl : ∀ fs : List (String × JValue),
    JValue.beqFields fs fs = true
  | [] => rfl
  | (k, v) :: fs => by
    simp [JValue.beqFields]
    exact ⟨JValue.beq_refl v, JValue.beqFields_refl fs⟩

end

mutual

theorem JValue.eq_of_beq : ∀ {a b : JValue}, JValue.beq a b = true → a = b
  | .null, .null, _ => rfl
  | .bool a, .bool b, h => by simp [JValue.beq] at h; simp [h]
  | .str a, .str b, h => by simp [JValue.beq] at h; simp [h]
  | .num a, .num b, h => by simp [JValue.beq] at h; simp [h]
  | .date a, .date b, h => by simp [JValue.beq] at h; simp [h]
  | .arr a, .arr b, h => by
    simp only [JValue.beq] at h
    have := JValue.eqList_of_beq h
    simp [this]
  | .obj a, .obj b, h => by
    simp only [JValue.beq] at h
    have := JValue.eqFields_of_beq h
    simp [this]
  | .null, .bool _, h => by simp [JValue.beq] at h
  | .null, .str _, h => by simp [JValue.beq] at h
  | .null, .num _, h => by simp [JValue.beq] at h
  | .null, .date _, h => by simp [JValue.beq] at h
  | .null, .arr _, h => by simp [JValue.beq] at h
  | .null, .obj _, h => by simp [JValue.beq] at h
  | .bool _, .null, h => by simp [JValue.beq] at h
  | .bool _, .str _, h => by simp [JValue.beq] at h
  | .bool _, .num _, h => by simp [JValue.beq] at h
  | .bool _, .date _, h => by simp [JValue.beq] at h
  | .bool _, .arr _, h => by simp [JValue.beq] at h
  | .bool _, .obj _, h => by simp [JValue.beq] at h
  | .str _, .null, h => by simp [JValue.beq] at h
  | .str _, .bool _, h => by simp [JValue.beq] at h
  | .str _, .num _, h => by simp [JValue.beq] at h
  | .str _, .date _, h => by simp [JValue.beq] at h
  | .str _, .arr _, h => by simp [JValue.beq] at h
  | .str _, .obj _, h => by simp [JValue.beq] at h
  | .num _, .null, h => by simp [JValue.beq] at h
  | .num _, .bool _, h => by simp [JValue.beq] at h
  | .num _, .str _, h => by simp [JValue.beq] at h
  | .num _, .date _, h => by simp [JValue.beq] at h
  | .num _, .arr _, h => by simp [JValue.beq] at h
  | .num _, .obj _, h => by simp [JValue.beq] at h
  | .date _, .null, h => by simp [JValue.beq] at h
  | .date _, .bool _, h => by simp [JValue.beq] at h
  | .date _, .str _, h => by simp [JValue.beq] at h
  | .date _, .num _, h => by simp [JValue.beq] at h
  | .date _, .arr _, h => by simp [JValue.beq] at h
  | .date _, .obj _, h => by simp [JValue.beq] at h
  | .arr _, .null, h => by simp [JValue.beq] at h
  | .arr _, .bool _, h => by simp [JValue.beq] at h
  | .arr _, .str _, h => by simp [JValue.beq] at h
  | .arr _, .num _, h => by simp [JValue.beq] at h
  | .arr _, .date _, h => by simp [JValue.beq] at h
  | .arr _, .obj _, h => by simp [JValue.beq] at h
  | .obj _, .null, h => by simp [JValue.beq] at h
  | .obj _, .bool _, h => by simp [JValue.beq] at h
  | .obj _, .str _, h => by simp [JValue.beq] at h
  | .obj _, .num _, h => by simp [JValue.beq] at h
  | .obj _, .date _, h => by simp [JValue.beq] at h
  | .obj _, .arr _, h => by simp [JValue.beq] at h

theorem JValue.eqList_of_beq : ∀ {a b : List JValue}, JValue.beqList a b = true → a = b
  | [], [], _ => rfl
  | [], _ :: _, h => by simp [JValue.beqList] at h
  | _ :: _, [], h => by simp [JValue.beqList] at h
  | x :: xs, y :: ys, h => by
    simp only [JValue.beqList, Bool.and_eq_true] at h
    have h1 := JValue.eq_of_beq h.1
    have h2 := JValue.eqList_of_beq h.2
    simp [h1, h2]

theorem JValue.eqFields_of_beq : ∀ {a b : List (String × JValue)},
    JValue.beqFields a b = true → a = b
  | [], [], _ => rfl
  | [], _ :: _, h => by simp [JValue.beqFields] at h
  | _ :: _, [], h => by simp [JValue.beqFields] at h
  | (ka, va) :: xs, (kb, vb) :: ys, h => by
    simp only [JValue.beqFields, Bool.and_eq_true, beq_iff_eq] at h
    have h1 := JValue.eq_of_beq h.1.2
    have h2 := JValue.eqFields_of_beq h.2
    simp [h.1.1, h1, h2]

end

instance : DecidableEq JValue := fun a b =>
  if h : JValue.beq a b = true then
    .isTrue (JValue.eq_of_beq h)
  else
    .isFalse (fun he => h (he ▸ JValue.beq_refl a))

/-- A Python dict of runtime values, in insertion order. -/
abbrev PyDict := List (String × JValue)

/-- `d.get(key, default)` on a dict. -/
def pyGetD (fields : PyDict) (key : String) (dflt : JValue) : JValue :=
  match fields.find? (fun f => f.1 == key) with
  | some f => f.2
  | none => dflt

/-- `d.get(key)` (default `None`). -/
def pyGet (fields : PyDict) (key : String) : JValue := pyGetD fields key .null

/-- `key in d`. -/
def pyHasKey (fields : PyDict) (key : String) : Bool :=
  (fields.find? (fun f => f.1 == key)).isSome

/-- `d[key] = v`: overwrite in place when present, else append. -/
def pySet : PyDict → String → JValue → PyDict
  | [], key, v => [(key, v)]
  | (k, w) :: rest, key, v =>
    if k = key then (k, v) :: rest else (k, w) :: pySet rest key v

/-- `d.pop(key, None)`'s effect on the dict. -/
def pyPop (fields : PyDict) (key : String) : PyDict :=
  fields.filter (fun f => f.1 ≠ key)

/-- Truthiness of a Python/JSON value (`or`-chains, `if x:`). -/
def pyTruthy : JValue → Bool
  | .null => false
  | .bool b => b
  | .str s => !s.isEmpty
  | .num n => n ≠ 0
  | .date _ => true
  | .arr xs => !xs.isEmpty
  | .obj fs => !fs.isEmpty

/-- `repr(v)` as interpolated into validation messages.  Scalars are
rendered faithfully (string-escaping corner cases aside); containers are
abbreviated — no proof below inspects a message beyond its field-path
prefix. -/
def pyRepr : JValue → String
  | .null => "None"
  | .bool true => "True"
  | .bool false => "False"
  | .str s => "'" ++ s ++ "'"
  | .num n => toString n
  | .date d => "datetime.date(" ++ toString d.year ++ ", " ++ toString d.month ++
      ", " ++ toString d.day ++ ")"
  | .arr _ => "[...]"
  | .obj _ => "\x7b...\x7d"

def pad2 (n : Nat) : String := if n < 10 then "0" ++ toString n else toString n

def pad4 (n : Nat) : String :=
  if n < 10 then "000" ++ toString n
  else if n < 100 then "00" ++ toString n
  else if n < 1000 then "0" ++ toString n
  else toString n

/-- `d.isoformat()`. -/
def isoformat (d : PyDate) : String :=
  pad4 d.year ++ "-" ++ pad2 d.month ++ "-" ++ pad2 d.day

/-- `_is_non_empty_str` (src/utils/context.py:33-34). -/
def isNonEmptyStr : JValue → Bool
  | .str s => pyStrip s ≠ ""
  | _ => false

/-- `re.match(r"^[^@\s]+@[^@\s]+\.[^@\s]+$", l)`: a full match exists iff
the string splits as `a ++ '@' ++ b` with `a` nonempty and
`@`/whitespace-free and `b` `@`/whitespace-free with an interior `.`. -/
def emailShape (l : List Char) : Bool :=
  let a := l.takeWhile (fun c => c ≠ '@')
  match l.drop a.length with
  | '@' :: b =>
    !a.isEmpty && a.all (fun c => !pySpace c) &&
    b.all (fun c => c ≠ '@' && !pySpace c) && b.tail.dropLast.contains '.'
  | _ => false

/-- `_looks_like_email` (src/utils/context.py:37-38). -/
def looksLikeEmail : JValue → Bool
  | .str s => emailShape (pyStripL s.data)
  | _ => false

/-- `_looks_like_url` (src/utils/context.py:41-46): `urlparse` scheme in
`{http, https}` with a non-empty netloc. -/
def urlShape (l : List Char) : Bool :=
  let low := l.map pyLowerChar
  let netlocNonempty := fun (rest : List Char) =>
    match rest with
    | [] => false
    | c :: _ => c ≠ '/' && c ≠ '?' && c ≠ '#'
  ("http://".data.isPrefixOf low && netlocNonempty (low.drop 7)) ||
  ("https://".data.isPrefixOf low && netlocNonempty (low.drop 8))

def looksLikeUrl : JValue → Bool
  | .str s => urlShape (pyStripL s.data)
  | _ => false

/-- The regex part of `_parse_iso_date`: `DATE_RE = ^\d{4}-\d{2}-\d{2}$`. -/
def isoShape (s : String) : Bool :=
  match s.data with
  | [y1, y2, y3, y4, '-', m1, m2, '-', d1, d2] =>
    y1.isDigit && y2.isDigit && y3.isDigit && y4.isDigit &&
    m1.isDigit && m2.isDigit && d1.isDigit && d2.isDigit
  | _ => false

/-- `_parse_iso_date(s, path=..., errors=errors)`
(src/utils/context.py:103-125): the parsed date together with the message it
appends on failure. -/
def parseIsoWithErr (v : JValue) (path : String) : Option PyDate × List String :=
  match v with
  | .str s =>
    if isoShape s then
      match parseIsoDateStr s with
      | some d => (some d, [])
      | none => (none, [path ++ (": invalid calendar date (got: " ++ pyRepr v ++ ")")])
    else (none, [path ++ (": must be 'YYYY-MM-DD' (got: " ++ pyRepr v ++ ")")])
  | _ => (none, [path ++ (": must be 'YYYY-MM-DD' (got: " ++ pyRepr v ++ ")")])

/-- `_parse_iso_date(s)` with `errors=None`, as `_tailor_timeline_items`
calls it. -/
def parseIsoOpt : JValue → Option PyDate
  | .str s => parseIsoDateStr s
  | _ => none

/-- `_check_precision_consistency` (src/utils/context.py:49-58). -/
def checkPrecisionConsistency (d : PyDate) (precision : String) (path : String) :
    List String :=
  if precision ≠ "year" ∧ precision ≠ "month" ∧ precision ≠ "day" then
    [path ++ (": precision must be one of ['day', 'month', 'year'] (got: " ++
      pyRepr (.str precision) ++ ")")]
  else if precision = "year" then
    if d.month = 1 ∧ d.day = 1 then []
    else [path ++ (": precision='year' requires MM-DD = 01-01 (got: " ++
      isoformat d ++ ")")]
  else if precision = "month" then
    if d.day = 1 then []
    else [path ++ (": precision='month' requires DD = 01 (got: " ++
      isoformat d ++ ")")]
  else []

/-- `sp not in ALLOWED_PRECISIONS` on an arbitrary runtime value. -/
def allowedPrecision (v : JValue) : Bool :=
  v == .str "year" || v == .str "month" || v == .str "day"

def allowedTimelineType (v : JValue) : Bool :=
  v == .str "work" || v == .str "education" || v == .str "project"

def itemPath (i : Nat) : String := "about_me.timeline[" ++ toString i ++ "]"

/-! The `for i, item in enumerate(tl)` body of `ContextManager.validate`
(src/utils/context.py:329-384), one definition per `errors.append` /
`warnings.append` site, concatenated in append order by
`timelineItemChecks`. -/

/-- Warning for an unexpected `type` (src/utils/context.py:335-337). -/
def tlWarnType (i : Nat) (item : PyDict) : List String :=
  if !allowedTimelineType (pyGet item "type") then
    [itemPath i ++ (".type: expected ['education', 'project', 'work'] (got " ++
      pyRepr (pyGet item "type") ++ ")")]
  else []

/-- `start_precision` membership error (src/utils/context.py:339-341). -/
def tlSpErr (i : Nat) (item : PyDict) : List String :=
  if !allowedPrecision (pyGet item "start_precision") then
    [itemPath i ++ ".start_precision: must be one of ['day', 'month', 'year']"]
  else []

/-- The `_parse_iso_date` call on `start_date`
(src/utils/context.py:342). -/
def tlSdPair (i : Nat) (item : PyDict) : Option PyDate × List String :=
  parseIsoWithErr (pyGet item "start_date") (itemPath i ++ ".start_date")

/-- Start-date precision consistency (src/utils/context.py:343-344). -/
def tlSpCons (i : Nat) (item : PyDict) : List String :=
  match (tlSdPair i item).1, pyGet item "start_precision" with
  | some d, .str s => checkPrecisionConsistency d s (itemPath i ++ ".start_date")
  | _, _ => []

/-- `is_current` type error (src/utils/context.py:346-348). -/
def tlIcErr (i : Nat) (item : PyDict) : List String :=
  match pyGet item "is_current" with
  | .bool _ => []
  | _ => [itemPath i ++ ".is_current: must be boolean"]

/-- The `end_date` block (src/utils/context.py:350-363). -/
def tlEndErrs (i : Nat) (item : PyDict) : List String :=
  if pyGet item "is_current" = .bool true then
    if pyGet item "end_date" ≠ .null then
      [itemPath i ++ ".end_date: must be null when is_current=true"]
    else []
  else
    if pyGet item "end_date" ≠ .null then
      (if !allowedPrecision (pyGet item "end_precision") then
        [itemPath i ++
          ".end_precision: must be one of ['day', 'month', 'year'] when end_date set"]
      else []) ++
      (parseIsoWithErr (pyGet item "end_date") (itemPath i ++ ".end_date")).2 ++
      (match (parseIsoWithErr (pyGet item "end_date") (itemPath i ++ ".end_date")).1,
          (tlSdPair i item).1 with
        | some e, some s =>
          if dateLt e s then [itemPath i ++ ": end_date must be >= start_date"]
          else []
        | _, _ => []) ++
      (match (parseIsoWithErr (pyGet item "end_date") (itemPath i ++ ".end_date")).1,
          pyGet item "end_precision" with
        | some e, .str s => checkPrecisionConsistency e s (itemPath i ++ ".end_date")
        | _, _ => [])
    else []

/-- `organization` type error (src/utils/context.py:365-366). -/
def tlOrgErr (i : Nat) (item : PyDict) : List String :=
  match pyGetD item "organization" (.str "") with
  | .str _ => []
  | _ => [itemPath i ++ ".organization: must be string"]

/-- Missing type-specific field warnings (src/utils/context.py:369-374). -/
def tlWarnField (i : Nat) (item : PyDict) : List String :=
  (if pyGet item "type" = .str "work" && !pyHasKey item "role" then
    [itemPath i ++ ".role: missing (expected for work)"] else []) ++
  (if pyGet item "type" = .str "education" && !pyHasKey item "degree" then
    [itemPath i ++ ".degree: missing (expected for education)"] else []) ++
  (if pyGet item "type" = .str "project" && !pyHasKey item "title" then
    [itemPath i ++ ".title: missing (expected for project)"] else [])

/-- `thesis` / `thesis.link` errors (src/utils/context.py:377-384). -/
def tlThesisErr (i : Nat) (item : PyDict) : List String :=
  match pyGet item "thesis" with
  | .null => []
  | .obj th =>
    match pyGet th "link" with
    | .null => []
    | .str s =>
      if urlShape (pyStripL s.data) then []
      else [itemPath i ++ ".thesis.link: must be http(s) url"]
    | _ => [itemPath i ++ ".thesis.link: must be http(s) url"]
  | _ => [itemPath i ++ ".thesis: must be object"]

/-- Errors and warnings for one timeline entry, in append order. -/
def timelineItemChecks (i : Nat) (v : JValue) : List String × List String :=
  match v with
  | .obj item =>
    (tlSpErr i item ++ (tlSdPair i item).2 ++ tlSpCons i item ++ tlIcErr i item ++
      tlEndErrs i item ++ tlOrgErr i item ++ tlThesisErr i item,
     tlWarnType i item ++ tlWarnField i item)
  | _ => ([itemPath i ++ ": must be object"], [])

/-- The `root keys` section of `validate` (src/utils/context.py:299-301). -/
def rootChecks (ctx : PyDict) : List String :=
  (["personal_info", "about_me", "contact"].filter (fun k => !pyHasKey ctx k)).map
    (fun k => "root: missing key '" ++ k ++ "'")

/-- The `personal_info` section of `validate` (src/utils/context.py:304-314). -/
def personalChecks (ctx : PyDict) : List String :=
  match pyGetD ctx "personal_info" (.obj []) with
  | .obj pf =>
    (if isNonEmptyStr (pyGet pf "name") then []
     else ["personal_info.name: must be non-empty string"]) ++
    (let email := pyGet pf "email"
     if !isNonEmptyStr email || !looksLikeEmail email then
       ["personal_info.email: must be valid email"]
     else []) ++
    (match pyGetD pf "title" (.str "") with
     | .str _ => []
     | _ => ["personal_info.title: must be string"])
  | _ => ["personal_info: must be object"]

/-- The `about_me` section of `validate` (src/utils/context.py:317-384):
errors and warnings in append order. -/
def aboutChecks (ctx : PyDict) : List String × List String :=
  match pyGetD ctx "about_me" (.obj []) with
  | .obj af =>
    let bioErr := match pyGet af "professional_bio" with
      | .arr xs =>
        if xs.all (fun x => match x with | .str _ => true | _ => false) then []
        else ["about_me.professional_bio: must be list[str]"]
      | _ => ["about_me.professional_bio: must be list[str]"]
    match pyGet af "timeline" with
    | .arr tl =>
      let pairs := tl.enum.map (fun p => timelineItemChecks p.1 p.2)
      (bioErr ++ (pairs.map (fun q => q.1)).flatten,
       (pairs.map (fun q => q.2)).flatten)
    | _ => (bioErr ++ ["about_me.timeline: must be list"], [])
  | _ => (["about_me: must be object"], [])

/-- The `contact` section of `validate` (src/utils/context.py:387-404). -/
def contactChecks (ctx : PyDict) : List String :=
  match pyGetD ctx "contact" (.obj []) with
  | .obj cf =>
    (let ce := pyGet cf "email"
     if !isNonEmptyStr ce || !looksLikeEmail ce then
       ["contact.email: must be valid email"]
     else []) ++
    (match pyGetD cf "location" (.str "") with
     | .str _ => []
     | _ => ["contact.location: must be string"]) ++
    (match pyGetD cf "socials" (.obj []) with
     | .null => []
     | .obj sf =>
       (sf.map (fun kv => match kv.2 with
         | .str s =>
           if urlShape (pyStripL s.data) then []
           else ["contact.socials." ++ kv.1 ++ ": must be http(s) url"]
         | _ => ["contact.socials." ++ kv.1 ++ ": must be http(s) url"])).flatten
     | _ => ["contact.socials: must be object"])
  | _ => ["contact: must be object"]

structure ValidationResult where
  ok : Bool
  errors : List String
  warnings : List String
deriving DecidableEq, Repr

/-- `ContextManager.validate` (src/utils/context.py:293-406): the four
sections' errors concatenated in program order;
`ok = (len(errors) == 0)`. -/
def validate (ctx : PyDict) : ValidationResult :=
  let errors := rootChecks ctx ++ personalChecks ctx ++ (aboutChecks ctx).1 ++
    contactChecks ctx
  { ok := errors.isEmpty, errors := errors, warnings := (aboutChecks ctx).2 }

/-- The `reload` gate (src/utils/context.py:245-247): raise
`ContextValidationError(errors)` unless validation passed. -/
def contextLoad (ctx : PyDict) : Except (List String) Unit :=
  if (validate ctx).ok then .ok () else .error (validate ctx).errors

/-! ### Timeline tailoring and derived fields (src/utils/context.py:128-203,
408-446) -/

def MONTHS_EN : List String :=
  ["Jan", "Feb", "Mar", "Apr", "May", "Jun",
   "Jul", "Aug", "Sep", "Oct", "Nov", "Dec"]

/-- `_fmt_month_year` (src/utils/context.py:128-129). -/
def fmtMonthYear (d : PyDate) : String :=
  MONTHS_EN.getD (d.month - 1) "" ++ " " ++ toString d.year

/-- `_build_display_range` (src/utils/context.py:132-140): always
month-name/year, regardless of any precision field. -/
def buildDisplayRange (item : PyDict) (startDt : PyDate) (endDt : Option PyDate) :
    String :=
  let startTxt := fmtMonthYear startDt
  let isCurrent := pyGet item "is_current" = JValue.bool true
  match endDt with
  | none => startTxt ++ " - Present"
  | some e =>
    if isCurrent then startTxt ++ " - Present"
    else startTxt ++ " - " ++ fmtMonthYear e

/-- `(item.get(k) or "").strip()`; non-string truthy values would raise in
Python and never occur post-validation. -/
def strField (item : PyDict) (k : String) : String :=
  match pyGet item k with
  | .str s => pyStrip s
  | _ => ""

/-- `_build_display_title` (src/utils/context.py:143-152). -/
def buildDisplayTitle (item : PyDict) : String :=
  let t := pyGet item "type"
  if t = .str "work" then strField item "role"
  else if t = .str "education" then strField item "degree"
  else if t = .str "project" then strField item "title"
  else
    let title := strField item "title"
    if title ≠ "" then title
    else
      let role := strField item "role"
      if role ≠ "" then role else strField item "degree"

/-- `_build_display_subtitle` (src/utils/context.py:155-161). -/
def buildDisplaySubtitle (item : PyDict) : String :=
  let org := strField item "organization"
  let desc := strField item "description"
  if org ≠ "" ∧ desc ≠ "" then org ++ " • " ++ desc
  else if org ≠ "" then org else desc

/-- `date.min`. -/
def pyDateMin : PyDate := ⟨1, 1, 1⟩

/-- The per-item enrichment inside `_tailor_timeline_items`
(src/utils/context.py:171-189): shallow-copy, add display fields and the
internal sort keys. -/
def tailorTransform (item : PyDict) : PyDict :=
  let startDt := parseIsoOpt (pyGet item "start_date")
  let endDt := parseIsoOpt (pyGet item "end_date")
  let it1 := pySet item "display_range"
    (.str (match startDt with
      | some sd => buildDisplayRange item sd endDt
      | none => ""))
  let it2 := pySet it1 "display_title" (.str (buildDisplayTitle item))
  let it3 := pySet it2 "display_subtitle" (.str (buildDisplaySubtitle item))
  let it4 := pySet it3 "_start_dt" (.date (startDt.getD pyDateMin))
  pySet it4 "_is_current"
    (.num (if pyGet item "is_current" = JValue.bool true then 1 else 0))

/-- The `(x["_is_current"], x["_start_dt"])` sort key. -/
def tailorSortKey (it : PyDict) : Int × PyDate :=
  (match pyGet it "_is_current" with | .num n => n | _ => 0,
   match pyGet it "_start_dt" with | .date d => d | _ => pyDateMin)

/-- Python tuple `<=` on the sort key. -/
def tailorKeyLe (a b : Int × PyDate) : Bool :=
  if a.1 ≠ b.1 then a.1 < b.1 else dateLe a.2 b.2

def DOT_PALETTE : List String :=
  ["bg-zinc-100", "bg-zinc-400", "bg-zinc-500", "bg-zinc-600", "bg-zinc-700",
   "bg-zinc-800"]

/-- `DOT_PALETTE[idx] if idx < len(DOT_PALETTE) else DOT_PALETTE[-1]`. -/
def dotClass (idx : Nat) : String :=
  if idx < DOT_PALETTE.length then DOT_PALETTE.getD idx "" else "bg-zinc-800"

/-- `_tailor_timeline_items` (src/utils/context.py:164-203): skip non-dicts,
enrich, stable-sort current-first then start-date descending, assign dot
colors by final position, strip the internal keys. -/
def tailorTimelineItems (items : List JValue) : List PyDict :=
  let tailored := items.filterMap (fun v =>
    match v with
    | .obj item => some (tailorTransform item)
    | _ => none)
  let sorted := tailored.mergeSort (fun a b => tailorKeyLe (tailorSortKey b) (tailorSortKey a))
  let dotted := sorted.enum.map (fun p => pySet p.2 "dot_class" (.str (dotClass p.1)))
  dotted.map (fun it => pyPop (pyPop it "_start_dt") "_is_current")

/-! ### Hobby background normalization (src/utils/context.py:429-444) -/

/-- `bg.replace("static/", "")`: remove every (left-to-right,
non-overlapping) occurrence of `static/`; fuel-driven, always called with
the list's length. -/
def replaceStaticF : Nat → List Char → List Char
  | _, [] => []
  | 0, l => l
  | fuel + 1, c :: rest =>
    if "static/".data.isPrefixOf (c :: rest) then
      replaceStaticF fuel ((c :: rest).drop 7)
    else
      c :: replaceStaticF fuel rest

def pyReplaceStatic (s : String) : String :=
  String.mk (replaceStaticF s.data.length s.data)

/-- The background-path normalization applied by
`ContextManager._build_derived`: strip `static/`, then ensure an `images/`
front. -/
def normalizeBg (bg : String) : String :=
  let bg := pyReplaceStatic bg
  if "images/".data.isPrefixOf bg.data then bg else "images/" ++ bg

/-- The per-hobby part of `_build_derived`: normalize a string-valued
`background` entry, leave everything else alone. -/
def deriveHobbyData (hd : PyDict) : PyDict :=
  match pyGet hd "background" with
  | .str s => pySet hd "background" (.str (normalizeBg s))
  | _ => hd

/-- `ContextManager._build_derived` (src/utils/context.py:408-446). -/
def buildDerived (ctx : PyDict) : PyDict :=
  let ctx1 :=
    match pyGetD ctx "about_me" (.obj []) with
    | .obj af =>
      match pyGetD af "timeline" (.arr []) with
      | .arr tl =>
        pySet ctx "about_me"
          (.obj (pySet af "timeline" (.arr ((tailorTimelineItems tl).map JValue.obj))))
      | _ => pySet ctx "about_me" (.obj af)
    | _ => ctx
  match pyGetD ctx1 "hobbies" (.obj []) with
  | .obj hf =>
    pySet ctx1 "hobbies"
      (.obj (hf.map (fun kv =>
        (kv.1, match kv.2 with
          | .obj hd => JValue.obj (deriveHobbyData hd)
          | _ => kv.2))))
  | _ => ctx1

/-! ### Shared list lemmas -/

theorem beforeLast_length_le (ch : Char) (l : List Char) :
    (beforeLast ch l).length ≤ l.length := by
  unfold beforeLast
  split
  · calc ((l.reverse.dropWhile (fun d => d ≠ ch)).tail).reverse.length
        = ((l.reverse.dropWhile (fun d => d ≠ ch)).tail).length := by
          rw [List.length_reverse]
      _ ≤ (l.reverse.dropWhile (fun d => d ≠ ch)).length :=
          (List.tail_sublist _).length_le
      _ ≤ l.reverse.length := (List.dropWhile_sublist _).length_le
      _ = l.length := List.length_reverse l
  · exact le_refl _

theorem beforeLast_mem (ch : Char) (l : List Char) (h : ch ∈ l) :
    ∃ a b, l = a ++ ch :: b ∧ (∀ c ∈ b, c ≠ ch) ∧ beforeLast ch l = a := by
  classical
  set p : Char → Bool := fun d => decide (d ≠ ch) with hp
  have hmemr : ch ∈ l.reverse := List.mem_reverse.mpr h
  have hne : l.reverse.dropWhile p ≠ [] := by
    intro hnil
    have := List.dropWhile_eq_nil_iff.mp hnil ch hmemr
    simp [hp] at this
  obtain ⟨x, t, hxt⟩ := List.exists_cons_of_ne_nil hne
  have hx : p ((l.reverse.dropWhile p).head hne) = false :=
    List.head_dropWhile_not p l.reverse hne
  have hxch : x = ch := by
    have : (l.reverse.dropWhile p).head hne = x := by simp [hxt]
    rw [this] at hx
    simpa [hp] using hx
  have hdecomp : l.reverse.takeWhile p ++ (ch :: t) = l.reverse := by
    rw [← hxch, ← hxt]
    exact List.takeWhile_append_dropWhile p l.reverse
  refine ⟨t.reverse, (l.reverse.takeWhile p).reverse, ?_, ?_, ?_⟩
  · have := congrArg List.reverse hdecomp
    simpa [List.reverse_append] using this.symm
  · intro c hc
    have hc' : c ∈ l.reverse.takeWhile p := List.mem_reverse.mp hc
    have := List.mem_takeWhile_imp hc'
    simpa [hp] using this
  · unfold beforeLast
    rw [if_pos h, ← hp, hxt]
    rfl

theorem beforeLast_not_mem (ch : Char) (l : List Char) (h : ch ∉ l) :
    beforeLast ch l = l := by
  unfold beforeLast
  rw [if_neg h]

theorem dropWhile_append_all {p : Char → Bool} (xs ys : List Char)
    (h : ∀ c ∈ xs, p c = true) :
    (xs ++ ys).dropWhile p = ys.dropWhile p := by
  induction xs with
  | nil => rfl
  | cons x rest ih =>
    have hx := h x (by simp)
    have hrest : ∀ c ∈ rest, p c = true := fun c hc => h c (by simp [hc])
    simp [List.dropWhile, hx, ih hrest]

/-- The defining property of `rsplit(sep, 1)[0]` on an explicit
decomposition at the last separator. -/
theorem beforeLast_decomp (ch : Char) (a b : List Char) (hb : ∀ c ∈ b, c ≠ ch) :
    beforeLast ch (a ++ ch :: b) = a := by
  classical
  have hmem : ch ∈ a ++ ch :: b := by simp
  unfold beforeLast
  rw [if_pos hmem]
  have hrev : (a ++ ch :: b).reverse = b.reverse ++ ch :: a.reverse := by
    simp [List.reverse_append]
  rw [hrev]
  have hall : ∀ c ∈ b.reverse, (fun d => decide (d ≠ ch)) c = true := by
    intro c hc
    have := hb c (List.mem_reverse.mp hc)
    simpa using this
  rw [dropWhile_append_all _ _ hall]
  simp [List.dropWhile]

/-! ### Claim C2: freshness gate -/

theorem foldl_runningMax (fs : List Int) (d : Int) :
    fs.foldl (fun latest m => if latest < m then m else latest) d = fs.foldl max d := by
  induction fs generalizing d with
  | nil => rfl
  | cons m rest ih =>
    simp only [List.foldl_cons]
    have : (if d < m then m else d) = max d m := by
      by_cases h : d < m <;> simp [h, max_def] <;> omega
    rw [this, ih]

/-- C2. The staleness check `_should_refresh_cache` returns `true` iff no
timestamp was recorded yet or the maximum of the directory's own mtime and
all scanned file mtimes strictly exceeds the recorded timestamp; a missing
directory yields a computed timestamp of 0. -/
theorem claim_C2 (cacheTimestamp : Option Int) (dir : Option DirScan) :
    (shouldRefreshCache cacheTimestamp dir = true ↔
      cacheTimestamp = none ∨
        ∃ t, cacheTimestamp = some t ∧ t < getDirMtime dir) ∧
    (∀ d fs, getDirMtime (some ⟨d, fs⟩) = fs.foldl max d) ∧
    getDirMtime none = 0 := by
  refine ⟨?_, ?_, rfl⟩
  · cases cacheTimestamp with
    | none => simp [shouldRefreshCache]
    | some t =>
      simp only [shouldRefreshCache]
      constructor
      · intro hgt
        exact Or.inr ⟨t, rfl, by simpa [gt_iff_lt] using of_decide_eq_true hgt⟩
      · rintro (h | ⟨t', ht', hlt⟩)
        · exact absurd h (by simp)
        · cases Option.some.inj ht'
          exact decide_eq_true (by simpa [gt_iff_lt] using hlt)
  · intro d fs
    simp only [getDirMtime]
    exact foldl_runningMax fs d

/-! ### Claim C10: excerpt truncation -/

/-- C10. The excerpt is at most `max_length + 3` characters: text that
already fits is returned verbatim; longer text is cut at the last space
inside the first `max_length` characters with `"..."` appended, and when
that window has no space at all the whole window plus `"..."` is returned. -/
theorem claim_C10 (content : String) (maxLength : Nat) :
    (generateExcerpt content maxLength).length ≤ maxLength + 3 ∧
    ((cleanTextL content.data).length ≤ maxLength →
      generateExcerpt content maxLength = String.mk (cleanTextL content.data)) ∧
    (maxLength < (cleanTextL content.data).length →
      (' ' ∈ (cleanTextL content.data).take maxLength →
        ∃ a b, (cleanTextL content.data).take maxLength = a ++ ' ' :: b ∧
          (∀ c ∈ b, c ≠ ' ') ∧
          (generateExcerpt content maxLength).data = a ++ ('.' :: '.' :: '.' :: [])) ∧
      (' ' ∉ (cleanTextL content.data).take maxLength →
        (generateExcerpt content maxLength).data =
          (cleanTextL content.data).take maxLength ++ ('.' :: '.' :: '.' :: []))) := by
  have hdef : pyExcerptL content.data maxLength =
      if (cleanTextL content.data).length ≤ maxLength then cleanTextL content.data
      else beforeLast ' ' ((cleanTextL content.data).take maxLength) ++
        ('.' :: '.' :: '.' :: []) := rfl
  refine ⟨?_, ?_, ?_⟩
  · show (pyExcerptL content.data maxLength).length ≤ maxLength + 3
    rw [hdef]
    split
    · rename_i hlen
      omega
    · rw [List.length_append]
      have h1 : (beforeLast ' ' ((cleanTextL content.data).take maxLength)).length ≤
          ((cleanTextL content.data).take maxLength).length :=
        beforeLast_length_le _ _
      have h2 : ((cleanTextL content.data).take maxLength).length ≤ maxLength := by
        rw [List.length_take]; omega
      simp only [List.length_cons, List.length_nil]
      omega
  · intro hshort
    show String.mk (pyExcerptL content.data maxLength) = _
    rw [hdef, if_pos hshort]
  · intro hlong
    constructor
    · intro hsp
      obtain ⟨a, b, hdec, hb, hbl⟩ := beforeLast_mem ' ' _ hsp
      refine ⟨a, b, hdec, hb, ?_⟩
      show pyExcerptL content.data maxLength = _
      rw [hdef, if_neg (by omega), hbl]
    · intro hsp
      show pyExcerptL content.data maxLength = _
      rw [hdef, if_neg (by omega), beforeLast_not_mem _ _ hsp]

/-- C10 witness: a concrete overlong content is cut at the last space of its
20-character window. -/
theorem claim_C10_witness :
    ∃ a b,
      (cleanTextL "<p>Hello world this is a test of the excerpt generator</p>".data).take 20 =
        a ++ ' ' :: b ∧
      (∀ c ∈ b, c ≠ ' ') ∧
      (generateExcerpt "<p>Hello world this is a test of the excerpt generator</p>" 20).data =
        a ++ ('.' :: '.' :: '.' :: []) :=
  (claim_C10 "<p>Hello world this is a test of the excerpt generator</p>" 20).2.2
    (by decide) |>.1 (by decide)

/-! ### Claim C4: featured projects -/

/-- The spec's reading of `getFeatured(limit)`: featured entities first in
existing order; fewer than `limit` featured ⇒ pad with non-featured ones in
existing (most-recent-first) order until `limit` or exhaustion. -/
def specFeatured (limit : Nat) (projects : List Project) : List Project :=
  let pool := projects.filter (fun p => !p.isDraft)
  let featured := pool.filter (fun p => p.featured)
  if featured.length < limit then
    featured ++ (pool.filter (fun p => !p.featured)).take (limit - featured.length)
  else
    featured.take limit

/-- A concrete project with the fields the featured query looks at. -/
def mkProj (slug : String) (featured : Bool) : Project :=
  { slug := slug, title := slug, description := "", contentHtml := "",
    contentRaw := "", tags := [], date := none, projectType := "local",
    githubUrl := none, demoUrl := none, featuredImage := none,
    featured := featured, technologies := [], stars := 0, forks := 0,
    isDraft := false }

/-- A sorted collection with one featured and five non-featured projects. -/
def exFeaturedColl : List Project :=
  [mkProj "n1" false, mkProj "f1" true, mkProj "n2" false, mkProj "n3" false,
   mkProj "n4" false, mkProj "n5" false]

/-- C4. `get_featured_projects(limit)` returns the featured non-draft
projects first (existing order), padded — when fewer than `limit` are
featured — with the leading (most recent) non-featured projects until
`limit` entries or exhaustion; on 1 featured + 5 non-featured projects and
`limit = 3` it returns the featured one and the first two non-featured
ones. -/
theorem claim_C4 (limit : Nat) (projects : List Project) :
    getFeaturedProjects limit projects = specFeatured limit projects ∧
    getFeaturedProjects 3 exFeaturedColl =
      [mkProj "f1" true, mkProj "n1" false, mkProj "n2" false] := by
  constructor
  · show (let all := getAllProjects false projects
          let featured := all.filter (fun p => p.featured)
          let featured :=
            if featured.length < limit then
              featured ++ (all.filter (fun p => !p.featured)).take (limit - featured.length)
            else featured
          featured.take limit) = specFeatured limit projects
    simp only [specFeatured, getAllProjects, Bool.false_eq_true, if_false]
    split
    · rename_i hlt
      apply List.take_of_length_le
      rw [List.length_append]
      have := List.length_take_le (limit - (List.filter (fun p => p.featured)
        (List.filter (fun p => !p.isDraft) projects)).length)
        (List.filter (fun p => !p.featured) (List.filter (fun p => !p.isDraft) projects))
      omega
    · rfl
  · decide

/-! ### Claim C1: related posts -/

/-- The spec's candidate set for `getRelated`: every other (by slug)
non-draft post with a non-empty case-insensitive tag intersection. -/
def relatedCandidates (post : BlogPost) (posts : List BlogPost) : List BlogPost :=
  (posts.filter (fun p => !p.isDraft)).filter
    (fun p => decide (p.slug ≠ post.slug) && decide (0 < sharedTagCount p post))

/-- The spec's ordering: stable sort by shared-tag count descending. -/
def specRelatedSorted (post : BlogPost) (posts : List BlogPost) : List BlogPost :=
  (relatedCandidates post posts).mergeSort
    (fun a b => decide (sharedTagCount b post ≤ sharedTagCount a post))

/-- The spec's `getRelated(entity, limit)`. -/
def specRelated (post : BlogPost) (limit : Nat) (posts : List BlogPost) :
    List BlogPost :=
  (specRelatedSorted post posts).take limit

theorem relatedScored_eq (post : BlogPost) (l : List BlogPost) :
    (l.filterMap (fun p =>
      if p.slug == post.slug then none
      else
        let shared := sharedTagCount p post
        if 0 < shared then some (shared, p) else none)) =
    (l.filter (fun p => decide (p.slug ≠ post.slug) &&
        decide (0 < sharedTagCount p post))).map
      (fun p => (sharedTagCount p post, p)) := by
  induction l with
  | nil => rfl
  | cons p rest ih =>
    simp only [List.filterMap_cons, List.filter_cons]
    by_cases hslug : p.slug = post.slug
    · have h1 : (p.slug == post.slug) = true := beq_iff_eq.mpr hslug
      have h2 : (decide (p.slug ≠ post.slug) &&
          decide (0 < sharedTagCount p post)) = false := by simp [hslug]
      rw [h1, h2]
      simpa using ih
    · have h1 : (p.slug == post.slug) = false := beq_eq_false_iff_ne.mpr hslug
      rw [h1]
      by_cases hsh : 0 < sharedTagCount p post
      · have h2 : (decide (p.slug ≠ post.slug) &&
            decide (0 < sharedTagCount p post)) = true := by simp [hslug, hsh]
        rw [h2]
        simp only [Bool.false_eq_true, if_false, if_true, if_pos hsh, List.map_cons]
        rw [ih]
      · have h2 : (decide (p.slug ≠ post.slug) &&
            decide (0 < sharedTagCount p post)) = false := by simp [hslug, hsh]
        rw [h2]
        simp only [Bool.false_eq_true, if_false, if_neg hsh]
        exact ih

def mkPost (slug : String) (tags : List String) : BlogPost :=
  { slug := slug, title := slug, date := ⟨2024, 1, 1⟩, contentHtml := "",
    contentRaw := "", excerpt := "", tags := tags, author := "Muhsin Kompas",
    featuredImage := none, readingTime := 1, isDraft := false }

def exPostA : BlogPost := mkPost "a" ["x", "y"]
def exPostB : BlogPost := mkPost "b" ["y", "z"]
def exPostC : BlogPost := mkPost "c" ["x", "y", "z"]

/-- C1. `get_related_posts(post, limit)` returns exactly the non-draft
posts with a different slug and a non-empty case-insensitive tag
intersection with the reference, stably sorted by intersection size
descending and truncated to `limit`; on posts A `[x,y]`, B `[y,z]`,
C `[x,y,z]` it ranks C above B and omits A itself. -/
theorem claim_C1 (post : BlogPost) (limit : Nat) (posts : List BlogPost) :
    getRelatedPosts post limit posts = specRelated post limit posts ∧
    (specRelatedSorted post posts).Pairwise
      (fun a b => sharedTagCount b post ≤ sharedTagCount a post) ∧
    (∀ k, (specRelatedSorted post posts).filter
        (fun p => decide (sharedTagCount p post = k)) =
      (relatedCandidates post posts).filter
        (fun p => decide (sharedTagCount p post = k))) ∧
    getRelatedPosts exPostA 3 [exPostA, exPostB, exPostC] = [exPostC, exPostB] := by
  have htrans : ∀ a b c : BlogPost,
      decide (sharedTagCount b post ≤ sharedTagCount a post) = true →
      decide (sharedTagCount c post ≤ sharedTagCount b post) = true →
      decide (sharedTagCount c post ≤ sharedTagCount a post) = true := by
    intro a b c hab hbc
    exact decide_eq_true (le_trans (of_decide_eq_true hbc) (of_decide_eq_true hab))
  have htotal : ∀ a b : BlogPost,
      (decide (sharedTagCount b post ≤ sharedTagCount a post) ||
       decide (sharedTagCount a post ≤ sharedTagCount b post)) = true := by
    intro a b
    rcases le_total (sharedTagCount b post) (sharedTagCount a post) with h | h
    · simp [h]
    · simp [h]
  refine ⟨?_, ?_, ?_, ?_⟩
  · show ((((getAllPosts false posts).filterMap _).mergeSort _).take limit).map _ = _
    have hall : getAllPosts false posts = posts.filter (fun p => !p.isDraft) := rfl
    rw [hall, relatedScored_eq post]
    rw [List.map_take]
    have hmap : (((posts.filter (fun p => !p.isDraft)).filter
          (fun p => decide (p.slug ≠ post.slug) &&
            decide (0 < sharedTagCount p post))).map
        (fun p => (sharedTagCount p post, p))).mergeSort
          (fun a b => decide (b.1 ≤ a.1)) =
        ((relatedCandidates post posts).mergeSort
          (fun a b => decide (sharedTagCount b post ≤ sharedTagCount a post))).map
          (fun p => (sharedTagCount p post, p)) := by
      rw [relatedCandidates]
      refine (List.map_mergeSort ?_).symm
      intro a _ b _
      rfl
    rw [hmap]
    simp only [List.map_map]
    have hid : ((fun x : Nat × BlogPost => x.2) ∘ fun p => (sharedTagCount p post, p)) =
        id := rfl
    rw [hid, List.map_id]
    rfl
  · unfold specRelatedSorted
    have hs := @List.sorted_mergeSort BlogPost
      (fun a b => decide (sharedTagCount b post ≤ sharedTagCount a post))
      htrans htotal (relatedCandidates post posts)
    exact hs.imp (fun h => of_decide_eq_true h)
  · intro k
    unfold specRelatedSorted
    set le := fun a b : BlogPost =>
      decide (sharedTagCount b post ≤ sharedTagCount a post) with hle
    set pred := fun p : BlogPost => decide (sharedTagCount p post = k) with hpred
    set cands := relatedCandidates post posts with hcands
    have hc : (cands.filter pred).Pairwise (fun a b => le a b = true) := by
      apply List.pairwise_of_forall_mem_list
      intro a ha b hb
      have ha' := of_decide_eq_true ((List.mem_filter.mp ha).2)
      have hb' := of_decide_eq_true ((List.mem_filter.mp hb).2)
      simp [hle, ha', hb']
    have hsub : (cands.filter pred).Sublist (cands.mergeSort le) :=
      List.sublist_mergeSort htrans htotal hc (List.filter_sublist cands)
    have hself : (cands.filter pred).filter pred = cands.filter pred := by
      apply List.filter_eq_self.mpr
      intro a ha
      exact (List.mem_filter.mp ha).2
    have hsub2 : (cands.filter pred).Sublist ((cands.mergeSort le).filter pred) := by
      have := List.Sublist.filter pred hsub
      rwa [hself] at this
    have hlen : ((cands.mergeSort le).filter pred).length = (cands.filter pred).length :=
      (List.Perm.filter pred (List.mergeSort_perm cands le)).length_eq
    exact (hsub2.eq_of_length hlen.symm).symm
  · have hscored : (((getAllPosts false [exPostA, exPostB, exPostC]).filterMap
        (fun p =>
          if p.slug == exPostA.slug then none
          else
            let shared := sharedTagCount p exPostA
            if 0 < shared then some (shared, p) else none))) =
        [(1, exPostB), (2, exPostC)] := by decide
    show (((((getAllPosts false [exPostA, exPostB, exPostC]).filterMap
        (fun p =>
          if p.slug == exPostA.slug then none
          else
            let shared := sharedTagCount p exPostA
            if 0 < shared then some (shared, p) else none)).mergeSort
        (fun a b => decide (b.1 ≤ a.1))).take 3).map (fun x => x.2)) =
      [exPostC, exPostB]
    rw [hscored]
    simp [List.mergeSort, List.splitInTwo, List.merge]

/-! ### Claim C3: draft exclusion -/

/-- A non-draft post that precedes the draft below and shares its slug. -/
def exShadowFirst : BlogPost := mkPost "s" ["t"]

/-- A draft post whose slug is shadowed by `exShadowFirst`. -/
def exDraftShadow : BlogPost := { mkPost "s" ["u"] with isDraft := true }

def exShadowColl : List BlogPost := [exShadowFirst, exDraftShadow]

/-- C3 counterexample: in a cached collection where a non-draft post earlier
in order shares the draft's slug, `get_post_by_slug` returns that earlier
post, not the draft — so a draft entity is not always "still returned by
getBySlug" as the claim states. -/
theorem claim_C3_counterexample :
    exDraftShadow ∈ exShadowColl ∧ exDraftShadow.isDraft = true ∧
    getPostBySlug exDraftShadow.slug exShadowColl = some exShadowFirst ∧
    exShadowFirst ≠ exDraftShadow := by decide

theorem filter_erase_draft (l : List BlogPost) (p : BlogPost)
    (h : p.isDraft = true) :
    (l.erase p).filter (fun q => !q.isDraft) = l.filter (fun q => !q.isDraft) := by
  induction l with
  | nil => rfl
  | cons q rest ih =>
    by_cases hq : q = p
    · subst hq
      simp [List.erase_cons, List.filter_cons, h]
    · have hne : (q == p) = false := beq_eq_false_iff_ne.mpr hq
      simp only [List.erase_cons, hne, Bool.false_eq_true, if_false, List.filter_cons]
      rw [ih]

/-- C3 (amended). A draft entity is absent from `getAll()` and `getByTag`,
removing it changes neither the default listing nor any `getAllTags` count,
and `getBySlug` still returns it provided no other entity of the collection
carries its slug. -/
theorem claim_C3_amended (coll : List BlogPost) (p : BlogPost) (t : String)
    (hmem : p ∈ coll) (hdraft : p.isDraft = true) :
    p ∉ getAllPosts false coll ∧
    p ∉ getPostsByTag t coll ∧
    getAllPosts false (coll.erase p) = getAllPosts false coll ∧
    getAllTags (coll.erase p) = getAllTags coll ∧
    ((∀ q ∈ coll, q.slug = p.slug → q = p) →
      getPostBySlug p.slug coll = some p) := by
  have hfil : getAllPosts false (coll.erase p) = getAllPosts false coll := by
    show (coll.erase p).filter (fun q => !q.isDraft) = coll.filter (fun q => !q.isDraft)
    exact filter_erase_draft coll p hdraft
  refine ⟨?_, ?_, hfil, ?_, ?_⟩
  · intro habs
    have := (List.mem_filter.mp habs).2
    simp [hdraft] at this
  · intro habs
    have : p ∈ getAllPosts false coll := (List.mem_filter.mp habs).1
    have := (List.mem_filter.mp this).2
    simp [hdraft] at this
  · show (tagsDict (coll.erase p)).mergeSort _ = (tagsDict coll).mergeSort _
    have : tagsDict (coll.erase p) = tagsDict coll := by
      unfold tagsDict
      rw [hfil]
    rw [this]
  · intro huniq
    have hmem' : p ∈ getAllPosts true coll := by simpa [getAllPosts] using hmem
    have hsome : ((getAllPosts true coll).find? (fun q => q.slug == p.slug)).isSome :=
      List.find?_isSome.mpr ⟨p, hmem', by simp⟩
    obtain ⟨q, hq⟩ := Option.isSome_iff_exists.mp hsome
    have hqmem : q ∈ coll := by
      simpa [getAllPosts] using List.mem_of_find?_eq_some hq
    have hqslug : q.slug = p.slug := by simpa using List.find?_some hq
    have hqp : q = p := huniq q hqmem hqslug
    show (getAllPosts true coll).find? (fun q => q.slug == p.slug) = some p
    rw [hq, hqp]

def exLoneDraft : BlogPost := { mkPost "w" ["g"] with isDraft := true }

/-- C3 witness: the amended theorem applied to a singleton collection
holding one draft. -/
theorem claim_C3_witness :
    exLoneDraft ∉ getAllPosts false [exLoneDraft] ∧
    exLoneDraft ∉ getPostsByTag "g" [exLoneDraft] ∧
    getAllPosts false ([exLoneDraft].erase exLoneDraft) =
      getAllPosts false [exLoneDraft] ∧
    getAllTags ([exLoneDraft].erase exLoneDraft) = getAllTags [exLoneDraft] ∧
    getPostBySlug exLoneDraft.slug [exLoneDraft] = some exLoneDraft := by
  have h := claim_C3_amended [exLoneDraft] exLoneDraft "g" (by decide) (by decide)
  exact ⟨h.1, h.2.1, h.2.2.1, h.2.2.2.1, h.2.2.2.2 (by decide)⟩

/-! ### Claim C5: slug and date derivation from filenames -/

/-- A raw unit named `2024-01-30-example.md` with no explicit slug or
date.  The mtime date is deliberately distinct from the filename date. -/
def exRawDated : RawUnit :=
  { loadOk := true, filename := "2024-01-30-example.md",
    mtimeDate := ⟨2030, 12, 31⟩, fmTitle := some "T", fmDate := none,
    fmSlug := none, fmTags := .absent, fmDraft := false, fmExcerpt := none,
    fmDescription := none, fmAuthor := none, fmFeaturedImage := none,
    fmImage := none, fmType := none, fmGithubUrl := none, fmDemoUrl := none,
    fmFeatured := false, fmTechnologies := .absent, fmStars := 0, fmForks := 0,
    content := "hello" }

/-- C5 counterexample: the projects engine derives the slug
`2024-01-30-example` (not `example`) from `2024-01-30-example.md`, and a
project without an explicit date keeps no date — the claim's
date-prefix-stripping rule does not hold for every content entity. -/
theorem claim_C5_counterexample :
    projExtractSlug "2024-01-30-example.md" = "2024-01-30-example" ∧
    "2024-01-30-example" ≠ "example" ∧
    (∃ pr, parseProject (fun s => s) exRawDated = some pr ∧
      pr.slug = "2024-01-30-example" ∧ pr.date = none) :=
  ⟨by decide, by decide, ⟨_, rfl, rfl, rfl⟩⟩

theorem datePrefixSplit_some {stem r : List Char}
    (h : datePrefixSplit stem = some r) :
    ∃ y1 y2 y3 y4 m1 m2 d1 d2,
      stem = y1 :: y2 :: y3 :: y4 :: '-' :: m1 :: m2 :: '-' ::
        d1 :: d2 :: '-' :: r ∧
      (y1.isDigit && y2.isDigit && y3.isDigit && y4.isDigit &&
       m1.isDigit && m2.isDigit && d1.isDigit && d2.isDigit) = true ∧
      r ≠ [] := by
  unfold datePrefixSplit at h
  split at h
  · rename_i y1 y2 y3 y4 m1 m2 d1 d2 rest
    split at h
    · rename_i hcond
      cases h
      simp only [Bool.and_eq_true] at hcond
      refine ⟨y1, y2, y3, y4, m1, m2, d1, d2, rfl, ?_, ?_⟩
      · simp [hcond.1.1, hcond.1.2]
      · have := hcond.2
        simpa [List.isEmpty_iff] using this
    · exact absurd h (by simp)
  · exact absurd h (by simp)

/-- C5 (amended). The blog engine strips a leading `YYYY-MM-DD-` prefix
from the extension-stripped stem (else keeps the bare stem) and derives the
date from the filename prefix; the projects engine always uses the bare
stem and derives no date from the filename. -/
theorem claim_C5_amended :
    (∀ (y1 y2 y3 y4 m1 m2 d1 d2 : Char) (r : List Char),
      (y1.isDigit && y2.isDigit && y3.isDigit && y4.isDigit &&
       m1.isDigit && m2.isDigit && d1.isDigit && d2.isDigit) = true →
      r ≠ [] →
      blogSlugOfStem (y1 :: y2 :: y3 :: y4 :: '-' :: m1 :: m2 :: '-' ::
        d1 :: d2 :: '-' :: r) = r) ∧
    (∀ stem : List Char,
      (¬ ∃ y1 y2 y3 y4 m1 m2 d1 d2 r,
        stem = y1 :: y2 :: y3 :: y4 :: '-' :: m1 :: m2 :: '-' ::
          d1 :: d2 :: '-' :: r ∧
        (y1.isDigit && y2.isDigit && y3.isDigit && y4.isDigit &&
         m1.isDigit && m2.isDigit && d1.isDigit && d2.isDigit) = true ∧
        r ≠ []) →
      blogSlugOfStem stem = stem) ∧
    (∀ stem ext : List Char, (∀ c ∈ ext, c ≠ '.') →
      blogExtractSlug (String.mk (stem ++ '.' :: ext)) =
        String.mk (blogSlugOfStem stem) ∧
      projExtractSlug (String.mk (stem ++ '.' :: ext)) = String.mk stem) ∧
    (∀ (md : String → String) (raw : RawUnit) (pr : Project),
      raw.fmDate = none → parseProject md raw = some pr → pr.date = none) ∧
    (∃ post, parsePost (fun s => s) exRawDated = some post ∧
      post.slug = "example" ∧ post.date = ⟨2024, 1, 30⟩) := by
  refine ⟨?_, ?_, ?_, ?_,
    ⟨{ slug := "example", title := "T", date := ⟨2024, 1, 30⟩,
       contentHtml := "hello", contentRaw := "hello", excerpt := "hello",
       tags := [], author := "Muhsin Kompas", featuredImage := none,
       readingTime := 1, isDraft := false }, by decide, rfl, rfl⟩⟩
  · intro y1 y2 y3 y4 m1 m2 d1 d2 r hd hr
    have hre : r.isEmpty = false := by
      rcases r with _ | _
      · exact absurd rfl hr
      · rfl
    unfold blogSlugOfStem datePrefixSplit
    simp only [Bool.and_eq_true] at hd
    simp [hd.1.1, hd.1.2, hd.2, hre]
  · intro stem hno
    unfold blogSlugOfStem
    cases hsplit : datePrefixSplit stem with
    | none => rfl
    | some r =>
      obtain ⟨y1, y2, y3, y4, m1, m2, d1, d2, h1, h2, h3⟩ :=
        datePrefixSplit_some hsplit
      exact absurd ⟨y1, y2, y3, y4, m1, m2, d1, d2, r, h1, h2, h3⟩ hno
  · intro stem ext hext
    have hbl : beforeLast '.' (stem ++ '.' :: ext) = stem :=
      beforeLast_decomp '.' stem ext hext
    constructor
    · show String.mk (blogSlugOfStem (beforeLast '.' (String.mk (stem ++ '.' :: ext)).data)) = _
      rw [show (String.mk (stem ++ '.' :: ext)).data = stem ++ '.' :: ext from rfl, hbl]
    · show String.mk (beforeLast '.' (String.mk (stem ++ '.' :: ext)).data) = _
      rw [show (String.mk (stem ++ '.' :: ext)).data = stem ++ '.' :: ext from rfl, hbl]
  · intro md raw pr hdate hparse
    cases hok : raw.loadOk with
    | false =>
      rw [parseProject, parseProjectEx] at hparse
      simp [hok, Except.toOption] at hparse
    | true =>
      rw [parseProject, parseProjectEx] at hparse
      simp only [hok, hdate, Bool.not_true, Bool.false_eq_true, if_false,
        Except.toOption] at hparse
      rw [← Option.some.inj hparse]

/-- C5 witness: the amended blog rule at the concrete stem
`2024-01-30-example`. -/
theorem claim_C5_witness :
    blogSlugOfStem ('2' :: '0' :: '2' :: '4' :: '-' :: '0' :: '1' :: '-' ::
      '3' :: '0' :: '-' :: "example".data) = "example".data :=
  claim_C5_amended.1 '2' '0' '2' '4' '0' '1' '3' '0' "example".data
    (by decide) (by decide)

/-! ### Claim C6: malformed units never abort the batch -/

/-- A unit whose frontmatter date string does not parse (bad calendar
date): `strptime` raises, the catch-all handler drops the unit. -/
def exRawBad : RawUnit :=
  { exRawDated with filename := "bad.md", fmDate := some (.s "2024-13-45") }

/-- The post parsed from `exRawDated` with the identity renderer. -/
def exParsedDated : BlogPost :=
  { slug := "example", title := "T", date := ⟨2024, 1, 30⟩,
    contentHtml := "hello", contentRaw := "hello", excerpt := "hello",
    tags := [], author := "Muhsin Kompas", featuredImage := none,
    readingTime := 1, isDraft := false }

/-- C6. Parsing is total over the `try/except` boundary (every failure
becomes `None`), the loaded collection is exactly a permutation of the
units that parsed, and every well-formed unit of a batch is still loaded
alongside malformed ones — for both engines.  Concretely, a batch with a
bad-date unit drops only that unit. -/
theorem claim_C6 (md : String → String) (raws : List RawUnit) :
    (∀ raw, parsePost md raw = (parsePostEx md raw).toOption) ∧
    (loadAllPosts md raws).Perm (raws.filterMap (parsePost md)) ∧
    (∀ raw p, raw ∈ raws → parsePost md raw = some p →
      p ∈ loadAllPosts md raws) ∧
    (∀ raw, parseProject md raw = (parseProjectEx md raw).toOption) ∧
    (loadAllProjects md raws).Perm (raws.filterMap (parseProject md)) ∧
    (∀ raw pr, raw ∈ raws → parseProject md raw = some pr →
      pr ∈ loadAllProjects md raws) ∧
    parsePost (fun s => s) exRawBad = none ∧
    [exRawBad, exRawDated].filterMap (parsePost (fun s => s)) = [exParsedDated] := by
  refine ⟨fun _ => rfl, List.mergeSort_perm _ _, ?_, fun _ => rfl,
    List.mergeSort_perm _ _, ?_, by decide, by decide⟩
  · intro raw p hmem hp
    exact List.mem_mergeSort.mpr (List.mem_filterMap.mpr ⟨raw, hmem, hp⟩)
  · intro raw pr hmem hp
    exact List.mem_mergeSort.mpr (List.mem_filterMap.mpr ⟨raw, hmem, hp⟩)

/-- C6 witness: the good unit of the mixed batch is in the loaded
collection. -/
theorem claim_C6_witness :
    exParsedDated ∈ loadAllPosts (fun s => s) [exRawBad, exRawDated] :=
  (claim_C6 (fun s => s) [exRawBad, exRawDated]).2.2.1 exRawDated exParsedDated
    (by decide) (by decide)

/-! ### Dict access lemmas -/

theorem pyGetD_pySet_self (d : PyDict) (k : String) (v dflt : JValue) :
    pyGetD (pySet d k v) k dflt = v := by
  induction d with
  | nil => simp [pySet, pyGetD, List.find?]
  | cons f rest ih =>
    obtain ⟨k₀, w⟩ := f
    by_cases hk : k₀ = k
    · simp [pySet, hk, pyGetD, List.find?]
    · have hbeq : (k₀ == k) = false := beq_eq_false_iff_ne.mpr hk
      simp only [pySet, hk, if_false, pyGetD, List.find?, hbeq]
      exact ih

theorem pyGetD_pySet_ne (d : PyDict) (k k' : String) (hne : k' ≠ k)
    (v dflt : JValue) :
    pyGetD (pySet d k v) k' dflt = pyGetD d k' dflt := by
  have hbk : (k == k') = false := beq_eq_false_iff_ne.mpr (Ne.symm hne)
  induction d with
  | nil => simp [pySet, pyGetD, List.find?, hbk]
  | cons f rest ih =>
    obtain ⟨k₀, w⟩ := f
    by_cases hk : k₀ = k
    · subst hk
      simp [pySet, pyGetD, List.find?, hbk]
    · simp only [pySet, hk, if_false, pyGetD, List.find?]
      by_cases hk' : (k₀ == k') = true
      · simp [hk']
      · simp only [Bool.not_eq_true] at hk'
        simp only [hk']
        exact ih

theorem pyGetD_pyPop_ne (d : PyDict) (k k' : String) (hne : k' ≠ k)
    (dflt : JValue) :
    pyGetD (pyPop d k) k' dflt = pyGetD d k' dflt := by
  induction d with
  | nil => rfl
  | cons f rest ih =>
    obtain ⟨k₀, w⟩ := f
    by_cases hk : k₀ = k
    · subst hk
      have hstep : pyPop ((k₀, w) :: rest) k₀ = pyPop rest k₀ := by
        simp [pyPop, List.filter_cons]
      have hbk : (k₀ == k') = false := beq_eq_false_iff_ne.mpr (Ne.symm hne)
      rw [hstep, ih]
      simp [pyGetD, List.find?, hbk]
    · have hstep : pyPop ((k₀, w) :: rest) k = (k₀, w) :: pyPop rest k := by
        simp [pyPop, List.filter_cons, hk]
      rw [hstep]
      by_cases hk' : (k₀ == k') = true
      · simp [pyGetD, List.find?, hk']
      · simp only [Bool.not_eq_true] at hk'
        simp only [pyGetD, List.find?, hk']
        exact ih

theorem pyGet_pySet_self (d : PyDict) (k : String) (v : JValue) :
    pyGet (pySet d k v) k = v := pyGetD_pySet_self d k v .null

theorem pyGet_pySet_ne (d : PyDict) (k k' : String) (hne : k' ≠ k) (v : JValue) :
    pyGet (pySet d k v) k' = pyGet d k' := pyGetD_pySet_ne d k k' hne v .null

theorem pyGet_pyPop_ne (d : PyDict) (k k' : String) (hne : k' ≠ k) :
    pyGet (pyPop d k) k' = pyGet d k' := pyGetD_pyPop_ne d k k' hne .null

/-! ### Claim C9: hobby background normalization -/

/-- Does the list contain an occurrence of `static/`? -/
def containsStatic : List Char → Bool
  | [] => false
  | c :: rest => "static/".data.isPrefixOf (c :: rest) || containsStatic rest

/-- C9 counterexample: removing `static/` occurrences can splice a new
occurrence together, so a second normalization changes the path again —
the normalization is not idempotent on every input. -/
theorem claim_C9_counterexample :
    normalizeBg "stastatic/tic/" = "images/static/" ∧
    normalizeBg (normalizeBg "stastatic/tic/") = "images/" ∧
    normalizeBg (normalizeBg "stastatic/tic/") ≠ normalizeBg "stastatic/tic/" := by
  decide

theorem replaceStaticF_of_not_contains :
    ∀ (n : Nat) (l : List Char), containsStatic l = false → replaceStaticF n l = l := by
  intro n
  induction n with
  | zero => intro l _; cases l <;> rfl
  | succ n ih =>
    intro l hl
    cases l with
    | nil => rfl
    | cons c rest =>
      simp only [containsStatic, Bool.or_eq_false_iff] at hl
      simp only [replaceStaticF, hl.1, Bool.false_eq_true, if_false]
      rw [ih rest hl.2]

theorem normalizeBg_isPrefixOf (s : String) :
    "images/".data.isPrefixOf (normalizeBg s).data = true := by
  unfold normalizeBg
  by_cases h : "images/".data.isPrefixOf (pyReplaceStatic s).data = true
  · simp [h]
  · simp only [Bool.not_eq_true] at h
    simp only [h, Bool.false_eq_true, if_false]
    exact List.isPrefixOf_iff_prefix.mpr (List.prefix_append _ _)

/-- C9 (amended). The normalization removes every `static/` occurrence (not
only a leading one) and forces an `images/` front; it is idempotent on
every path whose normalized form contains no `static/` occurrence — in
particular on the spec's `static/images/x.jpg` example — but not on every
input (see the counterexample); the hobby-derivation step rewrites exactly
the `background` entry this way. -/
theorem claim_C9_amended (s : String) :
    (containsStatic (normalizeBg s).data = false →
      normalizeBg (normalizeBg s) = normalizeBg s) ∧
    normalizeBg "static/images/x.jpg" = "images/x.jpg" ∧
    normalizeBg "images/x.jpg" = "images/x.jpg" ∧
    (∀ (hd : PyDict) (bg : String), pyGet hd "background" = .str bg →
      pyGet (deriveHobbyData hd) "background" = .str (normalizeBg bg)) := by
  refine ⟨?_, by decide, by decide, ?_⟩
  · intro h
    have h1 : pyReplaceStatic (normalizeBg s) = normalizeBg s := by
      show String.mk (replaceStaticF _ _) = _
      rw [replaceStaticF_of_not_contains _ _ h]
    show (if "images/".data.isPrefixOf (pyReplaceStatic (normalizeBg s)).data
        then pyReplaceStatic (normalizeBg s)
        else "images/" ++ pyReplaceStatic (normalizeBg s)) = normalizeBg s
    rw [h1, if_pos (normalizeBg_isPrefixOf s)]
  · intro hd bg hbg
    unfold deriveHobbyData
    rw [hbg]
    exact pyGet_pySet_self hd "background" _

/-- C9 witness: the amended idempotence applied to the spec's example
path. -/
theorem claim_C9_witness :
    normalizeBg (normalizeBg "static/images/x.jpg") =
      normalizeBg "static/images/x.jpg" :=
  (claim_C9_amended "static/images/x.jpg").1 (by decide)

/-! ### Claim C7: context validation of timeline items -/

theorem parseIsoDateStr_eq_none_of_not_shape (s : String) (h : isoShape s = false) :
    parseIsoDateStr s = none := by
  unfold parseIsoDateStr
  unfold isoShape at h
  split
  · rename_i y1 y2 y3 y4 m1 m2 d1 d2 heq
    rw [heq] at h
    simp only at h
    simp [h]
  · rfl

theorem parseIsoWithErr_fst (v : JValue) (path : String) :
    (parseIsoWithErr v path).1 = parseIsoOpt v := by
  cases v with
  | str s =>
    by_cases h : isoShape s = true
    · simp only [parseIsoWithErr, h, if_true, parseIsoOpt]
      cases hs : parseIsoDateStr s <;> simp [hs]
    · simp only [Bool.not_eq_true] at h
      simp [parseIsoWithErr, h, parseIsoOpt, parseIsoDateStr_eq_none_of_not_shape s h]
  | null => rfl
  | bool b => rfl
  | num n => rfl
  | date d => rfl
  | arr xs => rfl
  | obj fs => rfl

theorem parseIsoWithErr_err (v : JValue) (path : String)
    (h : (parseIsoWithErr v path).1 = none) :
    ∃ m, (parseIsoWithErr v path).2 = [path ++ m] := by
  cases v with
  | str s =>
    by_cases hs : isoShape s = true
    · simp only [parseIsoWithErr, hs, if_true] at h ⊢
      cases hd : parseIsoDateStr s with
      | some d => rw [hd] at h; simp at h
      | none => exact ⟨_, rfl⟩
    · simp only [Bool.not_eq_true] at hs
      simp only [parseIsoWithErr, hs, Bool.false_eq_true, if_false]
      exact ⟨_, rfl⟩
  | null => exact ⟨_, rfl⟩
  | bool b => exact ⟨_, rfl⟩
  | num n => exact ⟨_, rfl⟩
  | date d => exact ⟨_, rfl⟩
  | arr xs => exact ⟨_, rfl⟩
  | obj fs => exact ⟨_, rfl⟩

/-- The timeline-item defects the claim enumerates, phrased on the item's
runtime fields. -/
def BadTimelineItem (item : PyDict) : Prop :=
  parseIsoOpt (pyGet item "start_date") = none ∨
  (pyGet item "start_precision" = .str "year" ∧
    ∃ d, parseIsoOpt (pyGet item "start_date") = some d ∧
      ¬(d.month = 1 ∧ d.day = 1)) ∨
  (pyGet item "start_precision" = .str "month" ∧
    ∃ d, parseIsoOpt (pyGet item "start_date") = some d ∧ d.day ≠ 1) ∨
  (pyGet item "is_current" = .bool true ∧ pyGet item "end_date" ≠ .null) ∨
  (∃ sd ed, parseIsoOpt (pyGet item "start_date") = some sd ∧
    parseIsoOpt (pyGet item "end_date") = some ed ∧ dateLt ed sd = true)

theorem timelineItemChecks_bad (i : Nat) (item : PyDict)
    (hbad : BadTimelineItem item) :
    ∃ m, (itemPath i ++ m) ∈ (timelineItemChecks i (.obj item)).1 := by
  have hE : (timelineItemChecks i (.obj item)).1 =
      tlSpErr i item ++ (tlSdPair i item).2 ++ tlSpCons i item ++ tlIcErr i item ++
      tlEndErrs i item ++ tlOrgErr i item ++ tlThesisErr i item := rfl
  rcases hbad with h1 | ⟨hsp, d, hd, hnc⟩ | ⟨hsp, d, hd, hnc⟩ | ⟨hic, hed⟩ |
    ⟨sd, ed, hsd, hed, hlt⟩
  · have hfst : (parseIsoWithErr (pyGet item "start_date")
        (itemPath i ++ ".start_date")).1 = none := by
      rw [parseIsoWithErr_fst]; exact h1
    obtain ⟨m, hm⟩ := parseIsoWithErr_err _ _ hfst
    refine ⟨".start_date" ++ m, ?_⟩
    have hpair : (tlSdPair i item).2 = [itemPath i ++ (".start_date" ++ m)] := by
      show (parseIsoWithErr (pyGet item "start_date") (itemPath i ++ ".start_date")).2 = _
      rw [hm, String.append_assoc]
    rw [hE]
    simp [hpair]
  · have hfst : (tlSdPair i item).1 = some d := by
      show (parseIsoWithErr _ _).1 = _
      rw [parseIsoWithErr_fst]; exact hd
    have hcons : tlSpCons i item = [itemPath i ++ (".start_date" ++
        (": precision='year' requires MM-DD = 01-01 (got: " ++ isoformat d ++ ")"))] := by
      rw [tlSpCons, hfst, hsp]
      simp [checkPrecisionConsistency, hnc, String.append_assoc]
    refine ⟨".start_date" ++
      (": precision='year' requires MM-DD = 01-01 (got: " ++ isoformat d ++ ")"), ?_⟩
    rw [hE]
    simp [hcons]
  · have hfst : (tlSdPair i item).1 = some d := by
      show (parseIsoWithErr _ _).1 = _
      rw [parseIsoWithErr_fst]; exact hd
    have hcons : tlSpCons i item = [itemPath i ++ (".start_date" ++
        (": precision='month' requires DD = 01 (got: " ++ isoformat d ++ ")"))] := by
      rw [tlSpCons, hfst, hsp]
      simp [checkPrecisionConsistency, hnc, String.append_assoc]
    refine ⟨".start_date" ++
      (": precision='month' requires DD = 01 (got: " ++ isoformat d ++ ")"), ?_⟩
    rw [hE]
    simp [hcons]
  · have hend : tlEndErrs i item =
        [itemPath i ++ ".end_date: must be null when is_current=true"] := by
      rw [tlEndErrs, if_pos hic, if_pos hed]
    refine ⟨".end_date: must be null when is_current=true", ?_⟩
    rw [hE]
    simp [hend]
  · have hfst : (tlSdPair i item).1 = some sd := by
      show (parseIsoWithErr _ _).1 = _
      rw [parseIsoWithErr_fst]; exact hsd
    have hedfst : (parseIsoWithErr (pyGet item "end_date")
        (itemPath i ++ ".end_date")).1 = some ed := by
      rw [parseIsoWithErr_fst]; exact hed
    have hednn : pyGet item "end_date" ≠ .null := by
      intro h0
      rw [h0] at hed
      simp [parseIsoOpt] at hed
    by_cases hic : pyGet item "is_current" = .bool true
    · have hend : tlEndErrs i item =
          [itemPath i ++ ".end_date: must be null when is_current=true"] := by
        rw [tlEndErrs, if_pos hic, if_pos hednn]
      refine ⟨".end_date: must be null when is_current=true", ?_⟩
      rw [hE]
      simp [hend]
    · have hend : tlEndErrs i item =
          (if !allowedPrecision (pyGet item "end_precision") then
            [itemPath i ++
              ".end_precision: must be one of ['day', 'month', 'year'] when end_date set"]
          else []) ++
          (parseIsoWithErr (pyGet item "end_date") (itemPath i ++ ".end_date")).2 ++
          [itemPath i ++ ": end_date must be >= start_date"] ++
          (match (parseIsoWithErr (pyGet item "end_date")
              (itemPath i ++ ".end_date")).1, pyGet item "end_precision" with
            | some e, .str s =>
              checkPrecisionConsistency e s (itemPath i ++ ".end_date")
            | _, _ => []) := by
        rw [tlEndErrs, if_neg hic, if_pos hednn, hedfst, hfst]
        simp [hlt]
      refine ⟨": end_date must be >= start_date", ?_⟩
      rw [hE]
      simp [hend]

theorem validate_error_of_bad (ctx : PyDict) (af : PyDict) (tl : List JValue)
    (i : Nat) (item : PyDict)
    (h1 : pyGetD ctx "about_me" (.obj []) = .obj af)
    (h2 : pyGet af "timeline" = .arr tl)
    (h3 : tl[i]? = some (.obj item))
    (hbad : BadTimelineItem item) :
    ∃ m, (itemPath i ++ m) ∈ (validate ctx).errors := by
  obtain ⟨m, hm⟩ := timelineItemChecks_bad i item hbad
  refine ⟨m, ?_⟩
  have henum : (i, JValue.obj item) ∈ tl.enum :=
    List.mk_mem_enum_iff_getElem?.mpr h3
  have hpairs : timelineItemChecks i (.obj item) ∈
      tl.enum.map (fun p => timelineItemChecks p.1 p.2) :=
    List.mem_map_of_mem (fun p => timelineItemChecks p.1 p.2) henum
  have herrs : (timelineItemChecks i (.obj item)).1 ∈
      (tl.enum.map (fun p => timelineItemChecks p.1 p.2)).map (fun q => q.1) :=
    List.mem_map_of_mem (fun q => q.1) hpairs
  have hflat : (itemPath i ++ m) ∈
      ((tl.enum.map (fun p => timelineItemChecks p.1 p.2)).map (fun q => q.1)).flatten :=
    List.mem_flatten.mpr ⟨_, herrs, hm⟩
  have habout : (itemPath i ++ m) ∈ (aboutChecks ctx).1 := by
    simp only [aboutChecks, h1, h2]
    exact List.mem_append_right _ hflat
  show (itemPath i ++ m) ∈ rootChecks ctx ++ personalChecks ctx ++
    (aboutChecks ctx).1 ++ contactChecks ctx
  exact List.mem_append_left _ (List.mem_append_right _ habout)

/-- C7. Whenever a timeline item has an unparseable `start_date`, a
non-canonical date for its `year`/`month` start precision, an `end_date`
alongside `is_current: true`, or an `end_date` earlier than its
`start_date`, validation collects an error tagged with that item's field
path and the mandatory startup load raises; warnings never affect the
outcome: validation and the load succeed exactly when the error list is
empty. -/
theorem claim_C7 :
    (∀ (ctx af : PyDict) (tl : List JValue) (i : Nat) (item : PyDict),
      pyGetD ctx "about_me" (.obj []) = .obj af →
      pyGet af "timeline" = .arr tl →
      tl[i]? = some (.obj item) →
      BadTimelineItem item →
      (validate ctx).ok = false ∧
      (∃ m, (itemPath i ++ m) ∈ (validate ctx).errors) ∧
      contextLoad ctx = .error (validate ctx).errors) ∧
    (∀ ctx : PyDict,
      ((validate ctx).ok = true ↔ (validate ctx).errors = []) ∧
      (contextLoad ctx = .ok () ↔ (validate ctx).errors = [])) := by
  have hok : ∀ ctx : PyDict, (validate ctx).ok = (validate ctx).errors.isEmpty := by
    intro ctx; rfl
  constructor
  · intro ctx af tl i item h1 h2 h3 hbad
    obtain ⟨m, hm⟩ := validate_error_of_bad ctx af tl i item h1 h2 h3 hbad
    have hne : (validate ctx).errors ≠ [] := List.ne_nil_of_mem hm
    have hokf : (validate ctx).ok = false := by
      rw [hok]
      cases herr : (validate ctx).errors with
      | nil => exact absurd herr hne
      | cons a as => rfl
    refine ⟨hokf, ⟨m, hm⟩, ?_⟩
    unfold contextLoad
    rw [hokf]
    simp
  · intro ctx
    constructor
    · rw [hok]
      exact List.isEmpty_iff
    · unfold contextLoad
      by_cases h : (validate ctx).errors = []
      · have : (validate ctx).ok = true := by
          rw [hok, h]; rfl
        simp [this, h]
      · have : (validate ctx).ok = false := by
          rw [hok]
          cases herr : (validate ctx).errors with
          | nil => exact absurd herr h
          | cons a as => rfl
        simp [this, h]

/-- The spec's failing timeline item: year precision with a non-canonical
`2020-03-01` start date. -/
def exBadItem : PyDict :=
  [("type", .str "work"), ("role", .str "Engineer"),
   ("start_precision", .str "year"), ("start_date", .str "2020-03-01"),
   ("is_current", .bool true), ("organization", .str "Acme")]

def exBadAbout : PyDict :=
  [("professional_bio", .arr [.str "bio"]),
   ("timeline", .arr [.obj exBadItem])]

/-- A context document that is valid except for `exBadItem`. -/
def exBadCtx : PyDict :=
  [("personal_info", .obj [("name", .str "M"), ("email", .str "a@b.c"),
     ("title", .str "t")]),
   ("about_me", .obj exBadAbout),
   ("contact", .obj [("email", .str "a@b.c"), ("location", .str "L")])]

/-- C7 witness: the concrete document with `start_precision: "year"` and
`start_date: "2020-03-01"` fails validation with a path-tagged error and a
failing load. -/
theorem claim_C7_witness :
    (validate exBadCtx).ok = false ∧
    (∃ m, (itemPath 0 ++ m) ∈ (validate exBadCtx).errors) ∧
    contextLoad exBadCtx = .error (validate exBadCtx).errors :=
  claim_C7.1 exBadCtx exBadAbout [.obj exBadItem] 0 exBadItem
    (by decide) (by decide) (by decide)
    (Or.inr (Or.inl ⟨by decide, ⟨2020, 3, 1⟩, by decide, by decide⟩))

/-! ### Claim C8: display ranges of tailored timeline items -/

/-- Date formatting as the spec describes it (month-name/year for
`year`/`month` precision, day-month-year otherwise); this matches the
repository's unused `_format_date` (src/utils/context.py:61-67). -/
def specFormatDate (d : PyDate) (precision : String) : String :=
  if precision = "year" then toString d.year
  else if precision = "month" then fmtMonthYear d
  else pad2 d.day ++ " " ++ MONTHS_EN.getD (d.month - 1) "" ++ " " ++ toString d.year

/-- The precision-aware display range the claim asserts (en-dash separator,
`"<start> – Present"` when current), following the spec's words and the
unused `_format_range` (src/utils/context.py:70-82). -/
def specDisplayRange (item : PyDict) : String :=
  match parseIsoOpt (pyGet item "start_date") with
  | none => ""
  | some sd =>
    let sp := match pyGet item "start_precision" with | .str s => s | _ => "day"
    let st := specFormatDate sd sp
    if pyGet item "is_current" = JValue.bool true then st ++ " – Present"
    else
      match parseIsoOpt (pyGet item "end_date") with
      | none => st ++ " – Present"
      | some ed =>
        let ep := match pyGet item "end_precision" with | .str s => s | _ => "day"
        st ++ " – " ++ specFormatDate ed ep

/-- A valid day-precision timeline item. -/
def exDayItem : PyDict :=
  [("type", .str "work"), ("role", .str "r"), ("organization", .str "o"),
   ("start_precision", .str "day"), ("start_date", .str "2012-04-23"),
   ("is_current", .bool false), ("end_precision", .str "day"),
   ("end_date", .str "2013-05-01")]

/-- A context document containing only `exDayItem`; validation passes. -/
def exDayCtx : PyDict :=
  [("personal_info", .obj [("name", .str "M"), ("email", .str "a@b.c"),
     ("title", .str "t")]),
   ("about_me", .obj [("professional_bio", .arr [.str "bio"]),
     ("timeline", .arr [.obj exDayItem])]),
   ("contact", .obj [("email", .str "a@b.c"), ("location", .str "L")])]

/-- C8 counterexample: `_tailor_timeline_items` derives `display_range`
with `_build_display_range`, which always renders month-name/year, so a
validated day-precision item gets "Apr 2012 - May 2013" instead of the
day-month-year rendering the claim requires. -/
theorem claim_C8_counterexample :
    (validate exDayCtx).ok = true ∧
    (tailorTimelineItems [.obj exDayItem]).map (fun it => pyGet it "display_range") =
      [.str "Apr 2012 - May 2013"] ∧
    specDisplayRange exDayItem = "23 Apr 2012 – 01 May 2013" ∧
    ("Apr 2012 - May 2013" : String) ≠ "23 Apr 2012 – 01 May 2013" := by
  refine ⟨by decide, ?_, by decide, by decide⟩
  have hdef : tailorTimelineItems [.obj exDayItem] =
      ((([tailorTransform exDayItem].mergeSort
          (fun a b => tailorKeyLe (tailorSortKey b) (tailorSortKey a))).enum.map
        (fun p => pySet p.2 "dot_class" (.str (dotClass p.1)))).map
        (fun it => pyPop (pyPop it "_start_dt") "_is_current")) := rfl
  rw [hdef, List.mergeSort_singleton]
  decide

/-- The display range actually derived for an item, computed from the
fields the output dict still carries. -/
def displayRangeOf (o : PyDict) : String :=
  match parseIsoOpt (pyGet o "start_date") with
  | some sd => buildDisplayRange o sd (parseIsoOpt (pyGet o "end_date"))
  | none => ""

theorem tailorTransform_get_dr (item : PyDict) :
    pyGet (tailorTransform item) "display_range" = .str (displayRangeOf item) := by
  unfold tailorTransform displayRangeOf
  rw [pyGet_pySet_ne _ _ _ (by decide), pyGet_pySet_ne _ _ _ (by decide),
    pyGet_pySet_ne _ _ _ (by decide), pyGet_pySet_ne _ _ _ (by decide),
    pyGet_pySet_self]

theorem tailorTransform_get_keep (item : PyDict) (k : String)
    (h1 : k ≠ "display_range") (h2 : k ≠ "display_title")
    (h3 : k ≠ "display_subtitle") (h4 : k ≠ "_start_dt")
    (h5 : k ≠ "_is_current") :
    pyGet (tailorTransform item) k = pyGet item k := by
  unfold tailorTransform
  rw [pyGet_pySet_ne _ _ _ h5, pyGet_pySet_ne _ _ _ h4, pyGet_pySet_ne _ _ _ h3,
    pyGet_pySet_ne _ _ _ h2, pyGet_pySet_ne _ _ _ h1]

theorem displayRangeOf_congr (o o' : PyDict)
    (h1 : pyGet o "start_date" = pyGet o' "start_date")
    (h2 : pyGet o "end_date" = pyGet o' "end_date")
    (h3 : pyGet o "is_current" = pyGet o' "is_current") :
    displayRangeOf o = displayRangeOf o' := by
  unfold displayRangeOf buildDisplayRange
  rw [h1, h2, h3]

/-- C8 (amended). Every item `_tailor_timeline_items` emits carries a
`display_range` rendered with abbreviated month name and year for both
endpoints regardless of any precision field — `"<start> - Present"`
(hyphen separator) when the item is current or its end date is
absent/unparseable, `"<start> - <end>"` otherwise, and `""` when the start
date itself does not parse. -/
theorem claim_C8_amended :
    (∀ (items : List JValue) (o : PyDict), o ∈ tailorTimelineItems items →
      pyGet o "display_range" = .str (displayRangeOf o)) ∧
    (∀ (item : PyDict) (sd : PyDate) (ed : Option PyDate),
      ((pyGet item "is_current" = JValue.bool true ∨ ed = none) →
        buildDisplayRange item sd ed = fmtMonthYear sd ++ " - Present") ∧
      (pyGet item "is_current" ≠ JValue.bool true → ∀ e, ed = some e →
        buildDisplayRange item sd ed = fmtMonthYear sd ++ " - " ++ fmtMonthYear e)) := by
  constructor
  · intro items o ho
    have hdef : tailorTimelineItems items =
        ((((items.filterMap (fun v =>
            match v with
            | .obj item => some (tailorTransform item)
            | _ => none)).mergeSort
            (fun a b => tailorKeyLe (tailorSortKey b) (tailorSortKey a))).enum.map
          (fun p => pySet p.2 "dot_class" (.str (dotClass p.1)))).map
          (fun it => pyPop (pyPop it "_start_dt") "_is_current")) := rfl
    rw [hdef] at ho
    rw [List.mem_map] at ho
    obtain ⟨x, hx, hox⟩ := ho
    rw [List.mem_map] at hx
    obtain ⟨⟨i, y⟩, hiy, hxy⟩ := hx
    have hyin : y ∈ (items.filterMap (fun v =>
        match v with
        | .obj item => some (tailorTransform item)
        | _ => none)).mergeSort
        (fun a b => tailorKeyLe (tailorSortKey b) (tailorSortKey a)) := by
      have h0 := List.mk_mem_enum_iff_getElem?.mp hiy
      exact List.getElem?_mem h0
    have hy : y ∈ items.filterMap (fun v =>
        match v with
        | .obj item => some (tailorTransform item)
        | _ => none) := List.mem_mergeSort.mp hyin
    rw [List.mem_filterMap] at hy
    obtain ⟨v, _, hvy⟩ := hy
    obtain ⟨item, hitem⟩ : ∃ item, y = tailorTransform item := by
      cases v with
      | obj item => exact ⟨item, (Option.some.inj hvy).symm⟩
      | null => simp at hvy
      | bool b => simp at hvy
      | str s => simp at hvy
      | num n => simp at hvy
      | date d => simp at hvy
      | arr xs => simp at hvy
    subst hitem
    have hkeep : ∀ k : String, k ≠ "display_range" → k ≠ "dot_class" →
        k ≠ "_start_dt" → k ≠ "_is_current" →
        pyGet o k = pyGet (tailorTransform item) k := by
      intro k hk1 hk2 hk3 hk4
      rw [← hox, pyGet_pyPop_ne _ _ _ hk4, pyGet_pyPop_ne _ _ _ hk3, ← hxy,
        pyGet_pySet_ne _ _ _ hk2]
    have hdr : pyGet o "display_range" = .str (displayRangeOf item) := by
      rw [← hox, pyGet_pyPop_ne _ _ _ (by decide), pyGet_pyPop_ne _ _ _ (by decide),
        ← hxy, pyGet_pySet_ne _ _ _ (by decide)]
      exact tailorTransform_get_dr item
    have hcong : displayRangeOf o = displayRangeOf item := by
      apply displayRangeOf_congr
      · rw [hkeep "start_date" (by decide) (by decide) (by decide) (by decide)]
        exact tailorTransform_get_keep item "start_date" (by decide) (by decide)
          (by decide) (by decide) (by decide)
      · rw [hkeep "end_date" (by decide) (by decide) (by decide) (by decide)]
        exact tailorTransform_get_keep item "end_date" (by decide) (by decide)
          (by decide) (by decide) (by decide)
      · rw [hkeep "is_current" (by decide) (by decide) (by decide) (by decide)]
        exact tailorTransform_get_keep item "is_current" (by decide) (by decide)
          (by decide) (by decide) (by decide)
    rw [hdr, hcong]
  · intro item sd ed
    constructor
    · intro h
      cases ed with
      | none => rfl
      | some e =>
        have hic : pyGet item "is_current" = JValue.bool true := by
          rcases h with h | h
          · exact h
          · exact absurd h (by simp)
        show (if pyGet item "is_current" = JValue.bool true then
            fmtMonthYear sd ++ " - Present"
          else fmtMonthYear sd ++ " - " ++ fmtMonthYear e) = _
        rw [if_pos hic]
    · intro hic e he
      subst he
      show (if pyGet item "is_current" = JValue.bool true then
          fmtMonthYear sd ++ " - Present"
        else fmtMonthYear sd ++ " - " ++ fmtMonthYear e) = _
      rw [if_neg hic]

/-- The dict `_tailor_timeline_items` produces for `exDayItem`. -/
def exC8Out : PyDict :=
  [("type", .str "work"), ("role", .str "r"), ("organization", .str "o"),
   ("start_precision", .str "day"), ("start_date", .str "2012-04-23"),
   ("is_current", .bool false), ("end_precision", .str "day"),
   ("end_date", .str "2013-05-01"),
   ("display_range", .str "Apr 2012 - May 2013"),
   ("display_title", .str "r"), ("display_subtitle", .str "o"),
   ("dot_class", .str "bg-zinc-100")]

/-- C8 witness: the amended rule applied to the concrete tailored item. -/
theorem claim_C8_witness :
    pyGet exC8Out "display_range" = .str (displayRangeOf exC8Out) := by
  have hmem : exC8Out ∈ tailorTimelineItems [.obj exDayItem] := by
    have hdef : tailorTimelineItems [.obj exDayItem] =
        ((([tailorTransform exDayItem].mergeSort
            (fun a b => tailorKeyLe (tailorSortKey b) (tailorSortKey a))).enum.map
          (fun p => pySet p.2 "dot_class" (.str (dotClass p.1)))).map
          (fun it => pyPop (pyPop it "_start_dt") "_is_current")) := rfl
    have h : tailorTimelineItems [.obj exDayItem] = [exC8Out] := by
      rw [hdef, List.mergeSort_singleton]
      decide
    rw [h]
    exact List.mem_singleton.mpr rfl
  exact claim_C8_amended.1 [.obj exDayItem] exC8Out hmem

end Muhsinkompas
